import Mathlib

/-!
Verification development for the Malaysia-Econ-DB repository.

The Go source is shallowly embedded: pure computations become Lean
functions, external effects (HTTP fetches, database writes, the system
clock, UUID generation) become explicit oracle parameters, and the
handlers additionally return a trace of the calls they issued so that
"no network call / no store write" properties are statable.
-/

namespace MEDB

/-! ## Calendar dates

Models the subset of Go `time` used by the repository: values produced by
`time.Parse("2006-01-02", s)`, compared with `Before`/`After`, advanced
with `AddDate(0, 0, 1)`, and rendered with `Format("2006-01-02")`.
All such values are calendar dates at UTC midnight, so `After` is the
lexicographic order on (year, month, day). -/

structure Date where
  year : Nat
  month : Nat
  day : Nat
deriving DecidableEq, Repr

/-- Proleptic-Gregorian leap-year rule, as used by Go `time`. -/
def isLeapYear (y : Nat) : Bool :=
  (y % 4 == 0 && y % 100 != 0) || (y % 400 == 0)

/-- Number of days of month `m` in year `y` (Go `time` normalization). -/
def daysInMonth (y m : Nat) : Nat :=
  if m == 2 then (if isLeapYear y then 29 else 28)
  else if m == 4 || m == 6 || m == 9 || m == 11 then 30
  else 31

/-- Validity of a parsed date: exactly the range checks Go
`time.Parse("2006-01-02", ...)` performs on month and day. -/
def Date.valid (d : Date) : Bool :=
  1 ≤ d.month && d.month ≤ 12 && 1 ≤ d.day && d.day ≤ daysInMonth d.year d.month

/-- Strict calendar order: `dlt d e` means date `d` is strictly before `e`.
Go `d.Before(e)` on two dates parsed with the same layout. -/
def dlt (d e : Date) : Prop :=
  d.year < e.year ∨ (d.year = e.year ∧
    (d.month < e.month ∨ (d.month = e.month ∧ d.day < e.day)))

instance (d e : Date) : Decidable (dlt d e) := by
  unfold dlt; infer_instance

/-- Go `d.After(e)` for parsed dates. -/
def Date.after (d e : Date) : Bool := decide (dlt e d)

/-- Go `AddDate(0, 0, 1)` on a valid normalized date: the next calendar day. -/
def Date.addOneDay (d : Date) : Date :=
  if d.day < daysInMonth d.year d.month then ⟨d.year, d.month, d.day + 1⟩
  else if d.month < 12 then ⟨d.year, d.month + 1, 1⟩
  else ⟨d.year + 1, 1, 1⟩

/-- Rank function used only as a termination/fuel measure: strictly
increasing along `addOneDay` on valid dates and monotone in calendar order. -/
def dateRank (d : Date) : Nat := 372 * d.year + 31 * d.month + d.day

/-! ## Rendering and parsing of dates

Models Go `Format("2006-01-02")` and `time.Parse("2006-01-02", s)`. -/

/-- Decimal digits of `n`, zero-padded on the left to width `w`. -/
def padNat (w n : Nat) : String :=
  let s := toString n
  if s.length < w then String.mk (List.replicate (w - s.length) '0') ++ s else s

/-- Go `d.Format("2006-01-02")`. -/
def formatDate (d : Date) : String :=
  padNat 4 d.year ++ "-" ++ padNat 2 d.month ++ "-" ++ padNat 2 d.day

/-- Numeric value of a decimal digit character. -/
def digitVal (c : Char) : Nat := c.toNat - 48

/-- Range validation performed by Go `time.Parse` on the three numeric
fields of a `2006-01-02` layout. -/
def parseDateNums (y m d : Nat) : Option Date :=
  if 1 ≤ m && m ≤ 12 && 1 ≤ d && d ≤ daysInMonth y m then
    some ⟨y, m, d⟩
  else none

/-- Go `time.Parse("2006-01-02", s)`: a 4-digit year, a dash, a zero-padded
2-digit month, a dash, a zero-padded 2-digit day, with the month in 1..12
and the day in range for that month; anything else is a parse error. -/
def parseDate (s : String) : Option Date :=
  match s.data with
  | [y1, y2, y3, y4, h1, m1, m2, h2, d1, d2] =>
    if y1.isDigit && y2.isDigit && y3.isDigit && y4.isDigit &&
        h1 == '-' && m1.isDigit && m2.isDigit && h2 == '-' &&
        d1.isDigit && d2.isDigit then
      parseDateNums
        (((digitVal y1 * 10 + digitVal y2) * 10 + digitVal y3) * 10 + digitVal y4)
        (digitVal m1 * 10 + digitVal m2)
        (digitVal d1 * 10 + digitVal d2)
    else none
  | _ => none

/-! ## Date-range enumeration

Models the loop in `handlerFxFetchRange`
(`for d := start; !d.After(end); d = d.AddDate(0, 0, 1)`), which appends
`d.Format("2006-01-02")` for every day of the closed interval.  The Lean
embedding consumes explicit fuel; `fxDateList` supplies fuel that the
lemmas below show is always sufficient for valid dates. -/

def datesLoop (e : Date) : Nat → Date → List Date
  | 0, _ => []
  | fuel + 1, d => if d.after e then [] else d :: datesLoop e fuel d.addOneDay

/-- Date list built by `handlerFxFetchRange` before formatting: all days
`d` with `start ≤ d ≤ end`, in ascending order. -/
def fxDateList (start e : Date) : List Date :=
  datesLoop e (dateRank e + 1) start

/-! ## Configuration, application state and commands

Models `internal/config.Config`, the `command` value built by the CLI, and
the command registry of `main.go`. -/

structure Config where
  DBURL : String
  FXAPIKey : String
  ServerAddr : String
  CertFile : String
  KeyFile : String
  FXAPIBaseURL : String
deriving DecidableEq, Repr

structure command where
  Name : String
  Args : List String
deriving DecidableEq, Repr

/-! ## BNM API client response shapes (internal/BNMApiClient)

The numeric rate fields are Go `float64` values; they are carried opaquely
(no claim depends on float arithmetic), represented as rationals. -/

structure RateInfo where
  date : String
  buyingRate : Rat
  sellingRate : Rat
  middleRate : Rat
deriving DecidableEq, Repr

structure CurrencyRateMulti where
  currencyCode : String
  unit : Int
  rate : RateInfo
deriving DecidableEq, Repr

structure MultiRateApiResponse where
  data : List CurrencyRateMulti
deriving DecidableEq, Repr

structure CurrencyRateSingle where
  currencyCode : String
  unit : Int
  rate : RateInfo
deriving DecidableEq, Repr

structure SingleRateApiResponse where
  data : CurrencyRateSingle
deriving DecidableEq, Repr

/-- Stand-in for Go `fmt.Sprintf("%.4f", x)`; the claims are insensitive to
the exact decimal rendering, only to which value is rendered. -/
def sprintf4f (x : Rat) : String := toString x

/-- Stand-in for Go `fmt.Sprint(x)`. -/
def sprintV (x : Rat) : String := "v" ++ toString x

/-- Parameters of the generated `UpsertForeignExchange` query.  `ID`
models `uuid.New()` as a fresh identifier drawn from a per-handler
counter; `CreatedAt` models the `time.Now()` capture timestamp. -/
structure UpsertForeignExchangeParams where
  CurrencyCode : String
  BuyingRate : String
  SellingRate : String
  MiddleRate : String
  CreatedAt : Nat
  date : Date
  ID : Nat
deriving DecidableEq, Repr

def isErr : Except ε α → Bool
  | .error _ => true
  | .ok _ => false

/-! ## handlerFxFetchAll (fx:fetch_all)

The single batch fetch and the database are external effects: the fetch
outcome and the per-call store outcome are oracle parameters, and the
handler returns the list of upsert calls it issued alongside its result. -/

def mkFxUpsertAll (r : CurrencyRateMulti) (pd : Date) (now idv : Nat) :
    UpsertForeignExchangeParams :=
  { CurrencyCode := r.currencyCode
    BuyingRate := sprintf4f r.rate.buyingRate
    SellingRate := sprintV r.rate.sellingRate
    MiddleRate := sprintf4f r.rate.middleRate
    CreatedAt := now
    date := pd
    ID := idv }

/-- Loop body of `handlerFxFetchAll` over the returned entries.  A date
that fails to parse makes the handler return immediately; a store failure
(`storeOk k = false`) is only logged and the loop continues, which is why
both branches of the `if` below are observably identical. -/
def fetchAllLoop (storeOk : Nat → Bool) (now : Nat) :
    List CurrencyRateMulti → Nat →
      Except String Unit × List UpsertForeignExchangeParams
  | [], _ => (Except.ok (), [])
  | r :: rest, k =>
    match parseDate r.rate.date with
    | none => (Except.error "failed to parse date", [])
    | some pd =>
      let p := mkFxUpsertAll r pd now k
      if storeOk k then
        let out := fetchAllLoop storeOk now rest (k + 1)
        (out.1, p :: out.2)
      else
        let out := fetchAllLoop storeOk now rest (k + 1)
        (out.1, p :: out.2)

def handlerFxFetchAll (cfg : Config)
    (fetchResult : Except String MultiRateApiResponse)
    (storeOk : Nat → Bool) (now : Nat) :
    Except String Unit × List UpsertForeignExchangeParams :=
  if cfg.FXAPIBaseURL = "" then
    (Except.error "FX_API_BASE_URL is not configured", [])
  else
    match fetchResult with
    | Except.error e => (Except.error ("failed to fetch FX rates: " ++ e), [])
    | Except.ok rates => fetchAllLoop storeOk now rates.data 0

/-- Entry dates that parse, as a Bool predicate over returned entries. -/
def entryDateOk (r : CurrencyRateMulti) : Bool :=
  (parseDate r.rate.date).isSome

/-! ## handlerFxFetchRange (fx:fetch:range) -/

def mkFxUpsertRange (target : String) (r : RateInfo) (pd : Date)
    (now idv : Nat) : UpsertForeignExchangeParams :=
  { CurrencyCode := target
    BuyingRate := sprintf4f r.buyingRate
    SellingRate := sprintV r.sellingRate
    MiddleRate := sprintf4f r.middleRate
    CreatedAt := now
    date := pd
    ID := idv }

structure RangeSummary where
  successfulFetches : Nat
  failedFetches : Nat
  successfulStores : Nat
  failedStores : Nat
deriving DecidableEq, Repr

def zeroSummary : RangeSummary := ⟨0, 0, 0, 0⟩

/-- Outcome of `handlerFxFetchRange`: the returned error-or-nil, the four
logged counters, the per-date fetch calls issued (in order) and the store
upserts attempted (in order). -/
structure RangeOutcome where
  result : Except String Unit
  summary : RangeSummary
  fetchCalls : List (String × String)
  storeCalls : List UpsertForeignExchangeParams
deriving Repr

/-- Per-date loop of `handlerFxFetchRange`: fetch, count, parse the
returned date, attempt the upsert, count, and continue to the next date
regardless of the outcome. -/
def rangeLoop (fetch : String → String → Except String SingleRateApiResponse)
    (storeOk : Nat → Bool) (target : String) (now : Nat) :
    List String → Nat → RangeSummary →
      RangeSummary × List (String × String) × List UpsertForeignExchangeParams
  | [], _, acc => (acc, [], [])
  | dateStr :: rest, k, acc =>
    match fetch target dateStr with
    | Except.error _ =>
      let out := rangeLoop fetch storeOk target now rest k
        { acc with failedFetches := acc.failedFetches + 1 }
      (out.1, (target, dateStr) :: out.2.1, out.2.2)
    | Except.ok resp =>
      let acc1 := { acc with successfulFetches := acc.successfulFetches + 1 }
      match parseDate resp.data.rate.date with
      | none =>
        let out := rangeLoop fetch storeOk target now rest k
          { acc1 with failedStores := acc1.failedStores + 1 }
        (out.1, (target, dateStr) :: out.2.1, out.2.2)
      | some pd =>
        let p := mkFxUpsertRange target resp.data.rate pd now k
        if storeOk k then
          let out := rangeLoop fetch storeOk target now rest (k + 1)
            { acc1 with successfulStores := acc1.successfulStores + 1 }
          (out.1, (target, dateStr) :: out.2.1, p :: out.2.2)
        else
          let out := rangeLoop fetch storeOk target now rest (k + 1)
            { acc1 with failedStores := acc1.failedStores + 1 }
          (out.1, (target, dateStr) :: out.2.1, p :: out.2.2)

/-- Go `strings.ToUpper`, character-wise uppercasing over the underlying
character list. -/
def goToUpper (s : String) : String := String.mk (s.data.map Char.toUpper)

def handlerFxFetchRange (cfg : Config) (cmd : command)
    (fetch : String → String → Except String SingleRateApiResponse)
    (storeOk : Nat → Bool) (now : Nat) : RangeOutcome :=
  if cfg.FXAPIBaseURL = "" then
    ⟨Except.error "FX_API_BASE_URL is not configured", zeroSummary, [], []⟩
  else
    match cmd.Args with
    | [c, startDate, endDate] =>
      let targetCurrency := goToUpper c
      if targetCurrency.length ≠ 3 then
        ⟨Except.error ("invalid currency code format: " ++ targetCurrency ++
          " (must be 3 letters)"), zeroSummary, [], []⟩
      else
        match parseDate startDate with
        | none => ⟨Except.error "failed to parse start date", zeroSummary, [], []⟩
        | some start =>
          match parseDate endDate with
          | none => ⟨Except.error "failed to parse end date", zeroSummary, [], []⟩
          | some stop =>
            if dlt stop start then
              ⟨Except.error "end date must be after start date", zeroSummary, [], []⟩
            else
              let dates := (fxDateList start stop).map formatDate
              if dates.length = 0 then
                ⟨Except.error "no dates found in the specified range",
                  zeroSummary, [], []⟩
              else
                let out := rangeLoop fetch storeOk targetCurrency now dates 0 zeroSummary
                ⟨Except.ok (), out.1, out.2.1, out.2.2⟩
    | _ =>
      ⟨Except.error ("usage: " ++ cmd.Name ++
        " <currency_code> <start_date YYYY-MM-DD> <end_date YYYY-MM-DD>"),
        zeroSummary, [], []⟩

/-! ## Loop lemmas -/

/-! ## Persistence gateway: conflict-resolving upserts

Models `UpsertForeignExchange` (src/sql/queries/fx.sql) and
`UpsertStockPrice` (src/sql/queries/company.sql) against an in-memory
table.  `ON CONFLICT (key) DO UPDATE` becomes: if a row with the conflict
key exists, replace exactly the updated columns of the matching rows;
otherwise append a fresh row.  Timestamp columns receive the caller clock
(`CreatedAt` parameter for rates, `CURRENT_TIMESTAMP` modeled as a `now`
argument for prices). -/

structure FxRow where
  id : Nat
  currencyCode : String
  buyingRate : String
  sellingRate : String
  middleRate : String
  createdAt : Nat
  date : Date
deriving DecidableEq, Repr

/-- Conflict key of `foreign_exchange`: (currency_code, date). -/
def fxKeyMatch (p : UpsertForeignExchangeParams) (r : FxRow) : Bool :=
  decide (r.currencyCode = p.CurrencyCode ∧ r.date = p.date)

def fxNewRow (p : UpsertForeignExchangeParams) : FxRow :=
  ⟨p.ID, p.CurrencyCode, p.BuyingRate, p.SellingRate, p.MiddleRate, p.CreatedAt, p.date⟩

/-- Conflict action of `UpsertForeignExchange`: replace the three rate
columns and `created_at`; `id` and the key columns are untouched. -/
def fxUpdRow (p : UpsertForeignExchangeParams) (r : FxRow) : FxRow :=
  { r with buyingRate := p.BuyingRate, sellingRate := p.SellingRate,
           middleRate := p.MiddleRate, createdAt := p.CreatedAt }

def upsertForeignExchange (p : UpsertForeignExchangeParams) (t : List FxRow) :
    List FxRow :=
  if t.any (fxKeyMatch p) then
    t.map (fun r => if fxKeyMatch p r then fxUpdRow p r else r)
  else t ++ [fxNewRow p]

/-- Uniqueness constraint `uq_currency_date` as a table invariant. -/
def fxUnique (t : List FxRow) : Prop :=
  List.Pairwise (fun a b => ¬ (a.currencyCode = b.currencyCode ∧ a.date = b.date)) t

structure StockRow where
  stockCode : String
  priceDate : Date
  closingPrice : String
  sourceUrl : Option String
  extractedAt : Nat
deriving DecidableEq, Repr

structure UpsertStockPriceParams where
  StockCode : String
  PriceDate : Date
  ClosingPrice : String
  SourceUrl : Option String
deriving DecidableEq, Repr

/-- Conflict key of `daily_stock_prices`: (stock_code, price_date). -/
def stockKeyMatch (p : UpsertStockPriceParams) (r : StockRow) : Bool :=
  decide (r.stockCode = p.StockCode ∧ r.priceDate = p.PriceDate)

def stockNewRow (p : UpsertStockPriceParams) (now : Nat) : StockRow :=
  ⟨p.StockCode, p.PriceDate, p.ClosingPrice, p.SourceUrl, now⟩

/-- Conflict action of `UpsertStockPrice`: replace closing_price,
source_url, and refresh extracted_at to the current clock. -/
def stockUpdRow (p : UpsertStockPriceParams) (now : Nat) (r : StockRow) : StockRow :=
  { r with closingPrice := p.ClosingPrice, sourceUrl := p.SourceUrl,
           extractedAt := now }

def upsertStockPrice (p : UpsertStockPriceParams) (now : Nat)
    (t : List StockRow) : List StockRow :=
  if t.any (stockKeyMatch p) then
    t.map (fun r => if stockKeyMatch p r then stockUpdRow p now r else r)
  else t ++ [stockNewRow p now]

def stockUnique (t : List StockRow) : Prop :=
  List.Pairwise (fun a b => ¬ (a.stockCode = b.stockCode ∧ a.priceDate = b.priceDate)) t

/-! ### Upsert lemmas (proved once for rates, once for prices) -/

/-! ## Command registry and dispatch (main.go)

Models the `commands` map of registered handlers: Go map assignment is
function override, dispatch is lookup with a distinguished error. -/

def Registry (σ : Type) : Type := String → Option (σ → command → Except String Unit)

/-- Empty registry (`make(map[string]func(*AppState, command) error)`). -/
def emptyRegistry (σ : Type) : Registry σ := fun _ => none

/-- Go `c.registeredCommands[name] = f`: duplicate registration overwrites. -/
def registerCmd (m : Registry σ) (name : String)
    (f : σ → command → Except String Unit) : Registry σ :=
  fun n => if n = name then some f else m n

/-- Go `commands.run`: exact-name lookup, distinguished error when absent. -/
def runCmd (m : Registry σ) (s : σ) (cmd : command) : Except String Unit :=
  match m cmd.Name with
  | none => Except.error "command not found"
  | some f => f s cmd

/-! ## Query API handlers (https.go)

The store query and `strconv.ParseFloat` are oracles; the handlers map a
request to a status code and a body. -/

structure TimeSeriesDataPoint where
  date : String
  value : Rat
deriving DecidableEq, Repr

structure StockPriceDetailResponseItem where
  date : String
  value : Rat
  companyName : String
  stockCode : String
deriving DecidableEq, Repr

/-- Store query failure: `sql.ErrNoRows` is distinguished from any other
database error, mirroring the `err == sql.ErrNoRows` check. -/
inductive DbErr where
  | noRows
  | other (msg : String)
deriving DecidableEq, Repr

inductive HttpBody where
  | errorText (msg : String)
  | fxJson (items : List TimeSeriesDataPoint)
  | stockJson (items : List StockPriceDetailResponseItem)
deriving DecidableEq, Repr

structure HttpResponse where
  status : Nat
  body : HttpBody
deriving DecidableEq, Repr

/-- Row shape returned by `GetForeignExchangeByCurrencyAndDateRange`. -/
structure FxDbRow where
  date : Date
  middleRate : String
deriving DecidableEq, Repr

/-- Row shape returned by `GetStockPricesWithDetailsByCodeAndDateRange`. -/
structure StockDbRow where
  companyName : String
  priceDate : Date
  closingPrice : String
  stockCode : String
deriving DecidableEq, Repr

/-- Response-building loop of `handleGetFxRates`: parse the stored string
`middle_rate`; on failure log and skip the row, otherwise append a point. -/
def fxResponseLoop (parseFloat : String → Option Rat) :
    List FxDbRow → List TimeSeriesDataPoint
  | [] => []
  | r :: rest =>
    match parseFloat r.middleRate with
    | none => fxResponseLoop parseFloat rest
    | some v => ⟨formatDate r.date, v⟩ :: fxResponseLoop parseFloat rest

/-- Response-building loop of `handleGetStockPrices`. -/
def stockResponseLoop (parseFloat : String → Option Rat) :
    List StockDbRow → List StockPriceDetailResponseItem
  | [] => []
  | r :: rest =>
    match parseFloat r.closingPrice with
    | none => stockResponseLoop parseFloat rest
    | some v =>
      ⟨formatDate r.priceDate, v, r.companyName, r.stockCode⟩ ::
        stockResponseLoop parseFloat rest

def handleGetFxRates (parseFloat : String → Option Rat) (method : String)
    (code startS endS : String)
    (dbQuery : Date → Date → Except DbErr (List FxDbRow)) : HttpResponse :=
  if method ≠ "GET" then ⟨405, .errorText "Method Not Allowed"⟩
  else if code = "" ∨ startS = "" ∨ endS = "" then
    ⟨400, .errorText "Missing required query parameters: code, start_date, end_date"⟩
  else if code.length ≠ 3 then
    ⟨400, .errorText "Invalid currency code format (must be 3 letters)"⟩
  else
    match parseDate startS with
    | none => ⟨400, .errorText "Invalid start_date format (use YYYY-MM-DD)"⟩
    | some startDate =>
      match parseDate endS with
      | none => ⟨400, .errorText "Invalid end_date format (use YYYY-MM-DD)"⟩
      | some endDate =>
        match dbQuery startDate endDate with
        | .error .noRows => ⟨200, .fxJson []⟩
        | .error (.other _) => ⟨500, .errorText "Internal Server Error"⟩
        | .ok rows => ⟨200, .fxJson (fxResponseLoop parseFloat rows)⟩

def handleGetStockPrices (parseFloat : String → Option Rat) (method : String)
    (code startS endS : String)
    (dbQuery : Date → Date → Except DbErr (List StockDbRow)) : HttpResponse :=
  if method ≠ "GET" then ⟨405, .errorText "Method Not Allowed"⟩
  else if code = "" ∨ startS = "" ∨ endS = "" then
    ⟨400, .errorText "Missing required query parameters: code, start_date, end_date"⟩
  else
    match parseDate startS with
    | none => ⟨400, .errorText "Invalid start_date format (use YYYY-MM-DD)"⟩
    | some startDate =>
      match parseDate endS with
      | none => ⟨400, .errorText "Invalid end_date format (use YYYY-MM-DD)"⟩
      | some endDate =>
        match dbQuery startDate endDate with
        | .error .noRows => ⟨200, .stockJson []⟩
        | .error (.other _) => ⟨500, .errorText "Internal Server Error"⟩
        | .ok rows => ⟨200, .stockJson (stockResponseLoop parseFloat rows)⟩

/-! ## Stock price scraping (stock.go)

An HTML document is modeled structurally at the granularity goquery is
used: the divs matched by `div.col-md-3.col-6`, each with its `p`
elements, each of which has a visible text and the texts of its direct
`strong` children, in document order. -/

structure Para where
  text : String
  strongs : List String
deriving DecidableEq, Repr

structure HtmlDiv where
  paras : List Para
deriving DecidableEq, Repr

/-- Substring test, Go `strings.Contains` for a nonempty pattern. -/
def strContainsSub (s pat : String) : Bool := (s.splitOn pat).length ≥ 2

/-- Text of `s.Find("p").First()`: empty string on an empty selection. -/
def firstParaText (dv : HtmlDiv) : String :=
  ((dv.paras.head?).map Para.text).getD ""

/-- Texts selected by `s.Find("p > strong")` within one div. -/
def divStrongs (dv : HtmlDiv) : List String :=
  (dv.paras.map Para.strongs).flatten

/-- The `EachWithBreak` scan of `handlerStockFetchPrice`: find the first
div whose first paragraph mentions "Last Price" and that has at least one
strong element, and return that strong text; otherwise keep scanning. -/
def scanPrice : List HtmlDiv → Option String
  | [] => none
  | dv :: rest =>
    if strContainsSub (firstParaText dv) "Last Price" then
      match divStrongs dv with
      | [] => scanPrice rest
      | st :: _ => some st
    else scanPrice rest

/-- Failure modes of `handlerStockFetchPrice`, one constructor per
`fmt.Errorf` site, in source order. -/
inductive StockFetchErr where
  | usage (cmdName : String)
  | requestCreateFailed
  | fetchFailed
  | non200 (code : Nat)
  | htmlParseFailed
  | fieldNotFound
  | priceParseFailed (raw : String)
  | storeFailed
deriving DecidableEq, Repr

/-- Outcome of the HTTP fetch of the profile page: request construction
error, transport error, or a status code with a body that goquery either
parses into divs or rejects. -/
inductive PageFetchResult where
  | reqError
  | netError
  | httpStatus (code : Nat) (body : Except String (List HtmlDiv))
deriving Repr

def handlerStockFetchPrice (cmd : command) (page : PageFetchResult)
    (parseFloat : String → Option Rat) (storeOk : Bool) (today : Date)
    (baseURL : String) :
    Except StockFetchErr Unit × List UpsertStockPriceParams :=
  match cmd.Args with
  | [stockCode] =>
    match page with
    | .reqError => (Except.error .requestCreateFailed, [])
    | .netError => (Except.error .fetchFailed, [])
    | .httpStatus code body =>
      if code ≠ 200 then (Except.error (.non200 code), [])
      else
        match body with
        | .error _ => (Except.error .htmlParseFailed, [])
        | .ok divs =>
          match scanPrice divs with
          | none => (Except.error .fieldNotFound, [])
          | some priceStr =>
            if priceStr = "" then (Except.error .fieldNotFound, [])
            else
              match parseFloat priceStr.trim with
              | none => (Except.error (.priceParseFailed priceStr.trim), [])
              | some price =>
                let p : UpsertStockPriceParams :=
                  { StockCode := stockCode
                    PriceDate := today
                    ClosingPrice := sprintf4f price
                    SourceUrl := some (baseURL ++ stockCode) }
                if storeOk then (Except.ok (), [p])
                else (Except.error .storeFailed, [p])
  | _ => (Except.error (.usage cmd.Name), [])

/-! ## Shutdown coordination (main.go, cli.go)

A small interleaving semantics for the shared shutdown channel
(`make(chan struct\x7b\x7d, 1)`), following the Go channel rules: a
non-blocking receive in a `select` is ready when the buffer is nonempty or
the channel is closed; a non-blocking send is ready when the buffer has
space, and is also "ready" on a closed channel, where executing it
panics.  The three tasks are the main goroutine (blocked on its outer
`select`), the CLI goroutine (its deferred close-guard), and the server
goroutine (blocked receiving on the channel). -/

inductive ChanSt where
  | open0
  | open1
  | closed
deriving DecidableEq, Repr

inductive MainSt where
  | wait
  | gotSig
  | done
  | panicked
deriving DecidableEq, Repr

inductive CliSt where
  | run
  | atGuard
  | done
deriving DecidableEq, Repr

inductive SrvSt where
  | wait
  | done
deriving DecidableEq, Repr

structure Sys where
  ch : ChanSt
  m : MainSt
  cli : CliSt
  srv : SrvSt
  sigPending : Bool
deriving DecidableEq, Repr

/-- Interleaved small-step semantics of the shutdown protocol. -/
inductive SysStep : Sys → Sys → Prop where
  /-- An OS termination signal is delivered to the buffered `sigChan`. -/
  | sigArrive (ch m cli srv) :
      SysStep ⟨ch, m, cli, srv, false⟩ ⟨ch, m, cli, srv, true⟩
  /-- The CLI loop exits (exit command or EOF) and enters its deferred
  close-guard. -/
  | cliExit (ch m srv sp) :
      SysStep ⟨ch, m, .run, srv, sp⟩ ⟨ch, m, .atGuard, srv, sp⟩
  /-- CLI guard: the non-blocking receive is ready because the channel is
  closed, so the `default` close is skipped. -/
  | cliGuardRecvClosed (m srv sp) :
      SysStep ⟨.closed, m, .atGuard, srv, sp⟩ ⟨.closed, m, .done, srv, sp⟩
  /-- CLI guard: the non-blocking receive drains the buffered value, so the
  `default` close is skipped. -/
  | cliGuardRecvVal (m srv sp) :
      SysStep ⟨.open1, m, .atGuard, srv, sp⟩ ⟨.open0, m, .done, srv, sp⟩
  /-- CLI guard: buffer empty and not closed, so `default` runs
  `close(shutdownChan)`. -/
  | cliGuardClose (m srv sp) :
      SysStep ⟨.open0, m, .atGuard, srv, sp⟩ ⟨.closed, m, .done, srv, sp⟩
  /-- Main wakes from the `sigChan` case of its outer select. -/
  | mainRecvSig (ch cli srv) :
      SysStep ⟨ch, .wait, cli, srv, true⟩ ⟨ch, .gotSig, cli, srv, false⟩
  /-- Main wakes from the `shutdownChan` case because the channel closed. -/
  | mainRecvShutClosed (cli srv sp) :
      SysStep ⟨.closed, .wait, cli, srv, sp⟩ ⟨.closed, .done, cli, srv, sp⟩
  /-- Main wakes from the `shutdownChan` case by draining the buffer. -/
  | mainRecvShutVal (cli srv sp) :
      SysStep ⟨.open1, .wait, cli, srv, sp⟩ ⟨.open0, .done, cli, srv, sp⟩
  /-- Signal path, inner select: buffer has space, the send succeeds. -/
  | mainSendOk (cli srv sp) :
      SysStep ⟨.open0, .gotSig, cli, srv, sp⟩ ⟨.open1, .done, cli, srv, sp⟩
  /-- Signal path, inner select: buffer full, `default` is taken. -/
  | mainSendDefault (cli srv sp) :
      SysStep ⟨.open1, .gotSig, cli, srv, sp⟩ ⟨.open1, .done, cli, srv, sp⟩
  /-- Signal path, inner select: the channel is closed; per the Go
  semantics the send case can proceed and executing it panics. -/
  | mainSendClosedPanics (cli srv sp) :
      SysStep ⟨.closed, .gotSig, cli, srv, sp⟩ ⟨.closed, .panicked, cli, srv, sp⟩
  /-- Server task observes the closed channel and proceeds to shut down. -/
  | srvRecvClosed (m cli sp) :
      SysStep ⟨.closed, m, cli, .wait, sp⟩ ⟨.closed, m, cli, .done, sp⟩
  /-- Server task drains the buffered value and proceeds to shut down. -/
  | srvRecvVal (m cli sp) :
      SysStep ⟨.open1, m, cli, .wait, sp⟩ ⟨.open0, m, cli, .done, sp⟩

/-- Initial state: channel open and empty, all tasks running, no signal. -/
def sysInit : Sys := ⟨.open0, .wait, .run, .wait, false⟩

def sysReaches : Sys → Sys → Prop := Relation.ReflTransGen SysStep

/-! ## Auxiliary counting lemma -/

/-! ## Concrete demonstration values used by closed instantiations -/

def demoCfg : Config :=
  ⟨"postgres://localhost/econ", "", ":8443", "./certs/cert.pem",
    "./certs/key.pem", "https://api.bnm.gov.my/public/exchange-rate"⟩

def demoRespSingle : SingleRateApiResponse :=
  ⟨⟨"USD", 1, ⟨"0001-01-01", 4, 4, 4⟩⟩⟩

/-- Fetch oracle that answers 404-style failure on exactly one date. -/
def demoFetch : String → String → Except String SingleRateApiResponse :=
  fun _ ds =>
    if ds = "0001-01-02" then
      Except.error "API returned 404 Not Found (likely no data)"
    else Except.ok demoRespSingle

def demoRangeCmd : command := ⟨"fx:fetch:range", ["usd", "0001-01-01", "0001-01-03"]⟩

def c2BadEntry : CurrencyRateMulti := ⟨"USD", 1, ⟨"not-a-date", 1, 2, 3⟩⟩

def c2GoodEntry : CurrencyRateMulti := ⟨"EUR", 1, ⟨"0001-01-02", 4, 5, 6⟩⟩

def demoParseFloat : String → Option Rat :=
  fun v => if v = "4.2000" then some (21 / 5) else none

def demoFxDbRow : FxDbRow := ⟨⟨2024, 1, 2⟩, "4.2000"⟩

def demoFxDb : Date → Date → Except DbErr (List FxDbRow) :=
  fun _ _ => Except.ok [demoFxDbRow]

def demoStockDbRow : StockDbRow := ⟨"MAYBANK", ⟨2024, 1, 2⟩, "9.8000", "1155"⟩

def demoStockDb : Date → Date → Except DbErr (List StockDbRow) :=
  fun _ _ => Except.ok [demoStockDbRow]

def demoFxP1 : UpsertForeignExchangeParams :=
  ⟨"USD", "4.1000", "v4.2", "4.1500", 100, ⟨2024, 1, 2⟩, 0⟩

def demoFxP2 : UpsertForeignExchangeParams :=
  ⟨"USD", "4.3000", "v4.4", "4.3500", 200, ⟨2024, 1, 2⟩, 1⟩

def demoStockQ1 : UpsertStockPriceParams := ⟨"1155", ⟨2024, 1, 2⟩, "9.8000", none⟩

def demoStockQ2 : UpsertStockPriceParams :=
  ⟨"1155", ⟨2024, 1, 2⟩, "9.9000", some "https://example.test/1155"⟩

def demoFxDbErr : Date → Date → Except DbErr (List FxDbRow) :=
  fun _ _ => Except.error (DbErr.other "connection reset")

def demoFxDbNoRows : Date → Date → Except DbErr (List FxDbRow) :=
  fun _ _ => Except.error DbErr.noRows

def demoFxDbEmpty : Date → Date → Except DbErr (List FxDbRow) :=
  fun _ _ => Except.ok []

/-! ## Theorems -/

theorem daysInMonth_pos (y m : Nat) : 1 ≤ daysInMonth y m := by
  unfold daysInMonth
  split <;> [skip; split] <;> first | (split <;> omega) | omega

theorem daysInMonth_le_31 (y m : Nat) : daysInMonth y m ≤ 31 := by
  unfold daysInMonth
  split <;> [skip; split] <;> first | (split <;> omega) | omega

theorem daysInMonth_december (y : Nat) : daysInMonth y 12 = 31 := rfl

theorem Date.valid_iff (d : Date) : d.valid = true ↔
    (1 ≤ d.month ∧ d.month ≤ 12 ∧ 1 ≤ d.day ∧
      d.day ≤ daysInMonth d.year d.month) := by
  simp [Date.valid, and_assoc]

theorem Date.valid_addOneDay (d : Date) (h : d.valid) : d.addOneDay.valid := by
  obtain ⟨dy, dm, dd⟩ := d
  rw [Date.valid_iff] at h
  obtain ⟨h1, h2, h3, h4⟩ := h
  have hp := daysInMonth_pos dy dm
  unfold Date.addOneDay
  split
  · rw [Date.valid_iff]
    simp only at *
    omega
  · split
    · have hp2 := daysInMonth_pos dy (dm + 1)
      rw [Date.valid_iff]
      simp only at *
      omega
    · rw [Date.valid_iff]
      have h31 : daysInMonth (dy + 1) 1 = 31 := rfl
      simp only at *
      omega

theorem dlt_trans {a b c : Date} (h1 : dlt a b) (h2 : dlt b c) : dlt a c := by
  unfold dlt at *
  omega

theorem dlt_irrefl (a : Date) : ¬ dlt a a := by
  unfold dlt; omega

theorem dlt_total (a b : Date) : dlt a b ∨ a = b ∨ dlt b a := by
  unfold dlt
  rcases a with ⟨ay, am, ad⟩
  rcases b with ⟨by_, bm, bd⟩
  simp only [Date.mk.injEq]
  omega

/-- Date `d` is strictly before its own successor. -/
theorem dlt_addOneDay (d : Date) : dlt d d.addOneDay := by
  unfold Date.addOneDay
  split
  · unfold dlt; simp
  · split <;> (unfold dlt; simp)

/-- Successor property: for valid dates there is no date strictly between
`d` and `d.addOneDay`. -/
theorem dlt_succ_le {d x : Date} (hd : d.valid) (hx : x.valid)
    (h : dlt d x) : ¬ dlt x d.addOneDay := by
  obtain ⟨dy, dm, dd⟩ := d
  obtain ⟨xy, xm, xd⟩ := x
  rw [Date.valid_iff] at hd hx
  obtain ⟨hd1, hd2, hd3, hd4⟩ := hd
  obtain ⟨hx1, hx2, hx3, hx4⟩ := hx
  simp only at hd1 hd2 hd3 hd4 hx1 hx2 hx3 hx4
  unfold Date.addOneDay
  simp only
  split
  · unfold dlt at *
    simp only at *
    omega
  · split
    · -- month rollover: dd = daysInMonth dy dm
      intro hlt
      unfold dlt at h hlt
      simp only at h hlt
      rcases h with h | ⟨hy, h⟩
      · omega
      · rcases h with h | ⟨hm, h⟩
        · omega
        · subst hy; subst hm
          omega
    · -- year rollover: dm = 12, dd = daysInMonth dy 12 = 31
      intro hlt
      unfold dlt at h hlt
      simp only at h hlt
      have h12 : dm = 12 := by omega
      subst h12
      simp only [daysInMonth_december] at *
      rcases h with h | ⟨hy, h⟩
      · omega
      · rcases h with h | ⟨hm, h⟩
        · omega
        · subst hy; subst hm
          simp only [daysInMonth_december] at *
          omega

theorem dateRank_addOneDay {d : Date} (hd : d.valid) :
    dateRank d + 1 ≤ dateRank d.addOneDay := by
  simp only [Date.valid, Bool.and_eq_true, decide_eq_true_eq] at hd
  have h31 := daysInMonth_le_31 d.year d.month
  unfold Date.addOneDay
  split
  · simp only [dateRank]; omega
  · split
    · simp only [dateRank]; omega
    · simp only [dateRank]; omega

theorem dateRank_mono {d e : Date} (hd : d.valid) (he : e.valid)
    (h : dlt d e) : dateRank d < dateRank e := by
  obtain ⟨dy, dm, dd⟩ := d
  obtain ⟨ey, em, ed⟩ := e
  rw [Date.valid_iff] at hd he
  obtain ⟨hd1, hd2, hd3, hd4⟩ := hd
  obtain ⟨he1, he2, he3, he4⟩ := he
  have d31 := daysInMonth_le_31 dy dm
  have e31 := daysInMonth_le_31 ey em
  unfold dlt at h
  unfold dateRank
  simp only at *
  omega

theorem parseDateNums_valid {y m d : Nat} {dt : Date}
    (h : parseDateNums y m d = some dt) : dt.valid := by
  unfold parseDateNums at h
  split at h
  · rename_i hrange
    simp only [Option.some.injEq] at h
    rw [Date.valid_iff, ← h]
    simp only [Bool.and_eq_true, decide_eq_true_eq] at hrange
    exact ⟨hrange.1.1.1, hrange.1.1.2, hrange.1.2, hrange.2⟩
  · exact absurd h (by simp)

/-- Dates produced by `parseDate` satisfy the validity range checks. -/
theorem parseDate_valid {s : String} {d : Date} (h : parseDate s = some d) :
    d.valid := by
  unfold parseDate at h
  split at h
  · split at h
    · exact parseDateNums_valid h
    · exact absurd h (by simp)
  · exact absurd h (by simp)

/-- Characterization of `datesLoop` under sufficient fuel: it returns
exactly the valid dates of the closed interval from `d` to `e`, in strictly
ascending calendar order, starting at `d` when the interval is nonempty. -/
theorem datesLoop_spec (e : Date) (he : e.valid) :
    ∀ (fuel : Nat) (d : Date), d.valid → dateRank e + 1 ≤ dateRank d + fuel →
      (∀ x : Date, x ∈ datesLoop e fuel d ↔
        (x.valid ∧ ¬ dlt x d ∧ ¬ dlt e x)) ∧
      List.Chain' dlt (datesLoop e fuel d) ∧
      (∀ y : Date, (datesLoop e fuel d).head? = some y → y = d) := by
  intro fuel
  induction fuel with
  | zero =>
    intro d hd hfuel
    have hed : dlt e d := by
      rcases dlt_total e d with h | h | h
      · exact h
      · subst h; omega
      · exact absurd (dateRank_mono hd he h) (by omega)
    refine ⟨?_, by simp [datesLoop], by simp [datesLoop]⟩
    intro x
    simp only [datesLoop, List.not_mem_nil, false_iff]
    rintro ⟨hxv, hxd, hex⟩
    rcases dlt_total x d with h | h | h
    · exact hxd h
    · subst h; exact hex hed
    · exact hex (dlt_trans hed h)
  | succ fuel ih =>
    intro d hd hfuel
    by_cases hguard : d.after e
    · -- end already passed: empty list
      have hed : dlt e d := by
        simpa [Date.after] using hguard
      refine ⟨?_, by simp [datesLoop, hguard], by simp [datesLoop, hguard]⟩
      intro x
      simp only [datesLoop, hguard, if_true, List.not_mem_nil, false_iff]
      rintro ⟨hxv, hxd, hex⟩
      rcases dlt_total x d with h | h | h
      · exact hxd h
      · subst h; exact hex hed
      · exact hex (dlt_trans hed h)
    · have hde : ¬ dlt e d := by
        simpa [Date.after] using hguard
      have hd' : d.addOneDay.valid := Date.valid_addOneDay d hd
      have hrank : dateRank e + 1 ≤ dateRank d.addOneDay + fuel := by
        have := dateRank_addOneDay hd
        omega
      obtain ⟨ihmem, ihchain, ihhead⟩ := ih d.addOneDay hd' hrank
      have hcons : datesLoop e (fuel + 1) d = d :: datesLoop e fuel d.addOneDay := by
        simp [datesLoop, hguard]
      refine ⟨?_, ?_, ?_⟩
      · intro x
        rw [hcons]
        simp only [List.mem_cons, ihmem]
        constructor
        · rintro (rfl | ⟨hxv, hxd, hex⟩)
          · exact ⟨hd, dlt_irrefl x, hde⟩
          · refine ⟨hxv, ?_, hex⟩
            intro hxltd
            exact hxd (dlt_trans hxltd (dlt_addOneDay d))
        · rintro ⟨hxv, hxd, hex⟩
          rcases dlt_total d x with h | h | h
          · right
            exact ⟨hxv, dlt_succ_le hd hxv h, hex⟩
          · left; exact h.symm
          · exact absurd h hxd
      · rw [hcons]
        refine List.Chain'.cons' ihchain ?_
        intro z hz
        rw [Option.mem_def] at hz
        have hzd : z = d.addOneDay := ihhead z hz
        subst hzd
        exact dlt_addOneDay d
      · intro y hy
        rw [hcons] at hy
        simp only [List.head?_cons, Option.some.injEq] at hy
        exact hy.symm

/-- Fuel adequacy specialized to `fxDateList`. -/
theorem fxDateList_spec {s e : Date} (hs : s.valid) (he : e.valid) :
    (∀ x : Date, x ∈ fxDateList s e ↔ (x.valid ∧ ¬ dlt x s ∧ ¬ dlt e x)) ∧
    List.Chain' dlt (fxDateList s e) ∧
    (∀ y : Date, (fxDateList s e).head? = some y → y = s) :=
  datesLoop_spec e he (dateRank e + 1) s hs (by omega)

theorem fetchAllLoop_store_irrel (storeOk storeOk2 : Nat → Bool) (now : Nat) :
    ∀ (entries : List CurrencyRateMulti) (k : Nat),
      fetchAllLoop storeOk now entries k = fetchAllLoop storeOk2 now entries k := by
  intro entries
  induction entries with
  | nil => intro k; rfl
  | cons r rest ih =>
    intro k
    rcases hp : parseDate r.rate.date with _ | pd <;>
      simp [fetchAllLoop, hp, ite_self, ih (k + 1)]

theorem fetchAllLoop_spec (storeOk : Nat → Bool) (now : Nat) :
    ∀ (entries : List CurrencyRateMulti) (k : Nat),
      ((fetchAllLoop storeOk now entries k).1 =
        if entries.all entryDateOk then Except.ok ()
        else Except.error "failed to parse date") ∧
      ((fetchAllLoop storeOk now entries k).2.map (fun p => (p.CurrencyCode, p.date)) =
        (entries.takeWhile entryDateOk).map
          (fun r => (r.currencyCode, (parseDate r.rate.date).getD ⟨0, 0, 0⟩))) := by
  intro entries
  induction entries with
  | nil => intro k; simp [fetchAllLoop]
  | cons r rest ih =>
    intro k
    rcases hp : parseDate r.rate.date with _ | pd
    · have hbad : entryDateOk r = false := by simp [entryDateOk, hp]
      simp [fetchAllLoop, hp, hbad]
    · have hgood : entryDateOk r = true := by simp [entryDateOk, hp]
      obtain ⟨ih1, ih2⟩ := ih (k + 1)
      simp only [fetchAllLoop, hp, ite_self, List.all_cons, hgood, Bool.true_and,
        List.takeWhile_cons, if_pos]
      exact ⟨ih1, by simp [mkFxUpsertAll, ih2, hp]⟩

theorem rangeLoop_spec (fetch : String → String → Except String SingleRateApiResponse)
    (storeOk : Nat → Bool) (target : String) (now : Nat) :
    ∀ (dates : List String) (k : Nat) (acc : RangeSummary),
      ((rangeLoop fetch storeOk target now dates k acc).2.1 =
        dates.map (fun ds => (target, ds))) ∧
      ((rangeLoop fetch storeOk target now dates k acc).1.failedFetches =
        acc.failedFetches + dates.countP (fun ds => isErr (fetch target ds))) ∧
      ((rangeLoop fetch storeOk target now dates k acc).1.successfulFetches =
        acc.successfulFetches + dates.countP (fun ds => !isErr (fetch target ds))) := by
  intro dates
  induction dates with
  | nil => intro k acc; simp [rangeLoop]
  | cons ds rest ih =>
    intro k acc
    rcases hf : fetch target ds with e | resp
    · obtain ⟨ih1, ih2, ih3⟩ :=
        ih k { acc with failedFetches := acc.failedFetches + 1 }
      simp only [rangeLoop, hf, List.map_cons, List.countP_cons]
      refine ⟨by rw [ih1], ?_, ?_⟩
      · rw [ih2]; simp [isErr, hf]; omega
      · rw [ih3]; simp [isErr, hf]
    · rcases hp : parseDate resp.data.rate.date with _ | pd
      · obtain ⟨ih1, ih2, ih3⟩ :=
          ih k { acc with
            successfulFetches := acc.successfulFetches + 1,
            failedStores := acc.failedStores + 1 }
        simp only [rangeLoop, hf, hp, List.map_cons, List.countP_cons]
        refine ⟨by rw [ih1], ?_, ?_⟩
        · rw [ih2]; simp [isErr, hf]
        · rw [ih3]; simp [isErr, hf]; omega
      · cases hs : storeOk k with
        | true =>
          obtain ⟨ih1, ih2, ih3⟩ :=
            ih (k + 1) { acc with
              successfulFetches := acc.successfulFetches + 1,
              successfulStores := acc.successfulStores + 1 }
          simp only [rangeLoop, hf, hp, hs, if_true, List.map_cons, List.countP_cons]
          refine ⟨by rw [ih1], ?_, ?_⟩
          · rw [ih2]; simp [isErr, hf]
          · rw [ih3]; simp [isErr, hf]; omega
        | false =>
          obtain ⟨ih1, ih2, ih3⟩ :=
            ih (k + 1) { acc with
              successfulFetches := acc.successfulFetches + 1,
              failedStores := acc.failedStores + 1 }
          simp only [rangeLoop, hf, hp, hs, Bool.false_eq_true, if_false,
            List.map_cons, List.countP_cons]
          refine ⟨by rw [ih1], ?_, ?_⟩
          · rw [ih2]; simp [isErr, hf]
          · rw [ih3]; simp [isErr, hf]; omega

theorem fxKeyMatch_updRow (p q : UpsertForeignExchangeParams) (r : FxRow) :
    fxKeyMatch p (fxUpdRow q r) = fxKeyMatch p r := by
  simp [fxKeyMatch, fxUpdRow]

theorem fxKeyMatch_newRow (p : UpsertForeignExchangeParams) :
    fxKeyMatch p (fxNewRow p) = true := by
  simp [fxKeyMatch, fxNewRow]

theorem fxKeyMatch_congr {p q : UpsertForeignExchangeParams}
    (hc : p.CurrencyCode = q.CurrencyCode) (hd : p.date = q.date) :
    fxKeyMatch p = fxKeyMatch q := by
  funext r
  simp [fxKeyMatch, hc, hd]

theorem upsertFx_cons_nomatch {p : UpsertForeignExchangeParams} {r : FxRow}
    (t : List FxRow) (h : fxKeyMatch p r = false) :
    upsertForeignExchange p (r :: t) = r :: upsertForeignExchange p t := by
  unfold upsertForeignExchange
  simp only [List.any_cons, h, Bool.false_or]
  by_cases ht : t.any (fxKeyMatch p) <;> simp [ht, h]

theorem upsertFx_cons_match {p : UpsertForeignExchangeParams} {r : FxRow}
    {t : List FxRow} (h : fxKeyMatch p r = true)
    (hrest : ∀ r2 ∈ t, fxKeyMatch p r2 = false) :
    upsertForeignExchange p (r :: t) = fxUpdRow p r :: t := by
  unfold upsertForeignExchange
  simp only [List.any_cons, h, Bool.true_or, if_true]
  simp only [List.map_cons, h, if_true]
  congr 1
  calc t.map (fun r => if fxKeyMatch p r then fxUpdRow p r else r)
      = t.map id := List.map_congr_left (fun a ha => by simp [hrest a ha])
    _ = t := List.map_id t

theorem upsertStock_cons_nomatch {p : UpsertStockPriceParams} {now : Nat}
    {r : StockRow} (t : List StockRow) (h : stockKeyMatch p r = false) :
    upsertStockPrice p now (r :: t) = r :: upsertStockPrice p now t := by
  unfold upsertStockPrice
  simp only [List.any_cons, h, Bool.false_or]
  by_cases ht : t.any (stockKeyMatch p) <;> simp [ht, h]

theorem upsertStock_cons_match {p : UpsertStockPriceParams} {now : Nat}
    {r : StockRow} {t : List StockRow} (h : stockKeyMatch p r = true)
    (hrest : ∀ r2 ∈ t, stockKeyMatch p r2 = false) :
    upsertStockPrice p now (r :: t) = stockUpdRow p now r :: t := by
  unfold upsertStockPrice
  simp only [List.any_cons, h, Bool.true_or, if_true]
  simp only [List.map_cons, h, if_true]
  congr 1
  calc t.map (fun r => if stockKeyMatch p r then stockUpdRow p now r else r)
      = t.map id := List.map_congr_left (fun a ha => by simp [hrest a ha])
    _ = t := List.map_id t

theorem fxKey_unique_rest {p : UpsertForeignExchangeParams} {r : FxRow}
    {t : List FxRow}
    (hr : ∀ b ∈ t, ¬ (r.currencyCode = b.currencyCode ∧ r.date = b.date))
    (hm : fxKeyMatch p r = true) :
    ∀ r2 ∈ t, fxKeyMatch p r2 = false := by
  intro r2 h2
  cases hk : fxKeyMatch p r2
  · rfl
  · exfalso
    simp only [fxKeyMatch, decide_eq_true_eq] at hm hk
    exact hr r2 h2 ⟨hm.1.trans hk.1.symm, hm.2.trans hk.2.symm⟩

theorem stockKey_unique_rest {p : UpsertStockPriceParams} {r : StockRow}
    {t : List StockRow}
    (hr : ∀ b ∈ t, ¬ (r.stockCode = b.stockCode ∧ r.priceDate = b.priceDate))
    (hm : stockKeyMatch p r = true) :
    ∀ r2 ∈ t, stockKeyMatch p r2 = false := by
  intro r2 h2
  cases hk : stockKeyMatch p r2
  · rfl
  · exfalso
    simp only [stockKeyMatch, decide_eq_true_eq] at hm hk
    exact hr r2 h2 ⟨hm.1.trans hk.1.symm, hm.2.trans hk.2.symm⟩

/-- Rows carrying the upserted key after an upsert: exactly one, namely the
updated old row on conflict or the fresh row otherwise. -/
theorem fxFilter_key_upsert {p : UpsertForeignExchangeParams}
    {t : List FxRow} (hu : fxUnique t) :
    (upsertForeignExchange p t).filter (fxKeyMatch p) =
      [(t.find? (fxKeyMatch p)).elim (fxNewRow p) (fxUpdRow p)] := by
  induction t with
  | nil =>
    simp [upsertForeignExchange, List.filter, fxKeyMatch_newRow]
  | cons r t ih =>
    obtain ⟨hr, ht⟩ := List.pairwise_cons.mp hu
    cases hm : fxKeyMatch p r
    · rw [upsertFx_cons_nomatch t hm, List.filter_cons_of_neg (by simp [hm]),
        List.find?_cons_of_neg t (by simp [hm])]
      exact ih ht
    · have hrest := fxKey_unique_rest hr hm
      rw [upsertFx_cons_match hm hrest,
        List.filter_cons_of_pos (by simp [fxKeyMatch_updRow, hm]),
        List.find?_cons_of_pos t hm]
      simp only [Option.elim]
      congr 1
      exact List.filter_eq_nil_iff.mpr (fun a ha => by simp [hrest a ha])

theorem stockFilter_key_upsert {p : UpsertStockPriceParams} {now : Nat}
    {t : List StockRow} (hu : stockUnique t) :
    (upsertStockPrice p now t).filter (stockKeyMatch p) =
      [(t.find? (stockKeyMatch p)).elim (stockNewRow p now) (stockUpdRow p now)] := by
  induction t with
  | nil =>
    simp [upsertStockPrice, List.filter, stockKeyMatch, stockNewRow]
  | cons r t ih =>
    obtain ⟨hr, ht⟩ := List.pairwise_cons.mp hu
    cases hm : stockKeyMatch p r
    · rw [upsertStock_cons_nomatch t hm, List.filter_cons_of_neg (by simp [hm]),
        List.find?_cons_of_neg t (by simp [hm])]
      exact ih ht
    · have hrest := stockKey_unique_rest hr hm
      rw [upsertStock_cons_match hm hrest,
        List.filter_cons_of_pos (by simp [stockKeyMatch, stockUpdRow] at hm ⊢; exact hm),
        List.find?_cons_of_pos t hm]
      simp only [Option.elim]
      congr 1
      exact List.filter_eq_nil_iff.mpr (fun a ha => by simp [hrest a ha])

theorem fxFilter_nonkey_map (p : UpsertForeignExchangeParams) (t : List FxRow) :
    (t.map (fun r => if fxKeyMatch p r then fxUpdRow p r else r)).filter
        (fun r => !fxKeyMatch p r) =
      t.filter (fun r => !fxKeyMatch p r) := by
  induction t with
  | nil => rfl
  | cons r t ih =>
    cases hm : fxKeyMatch p r
    · simp only [List.map_cons, hm, Bool.false_eq_true, if_false,
        List.filter_cons, Bool.not_false]
      rw [ih]
    · simp only [List.map_cons, hm, if_true, List.filter_cons,
        fxKeyMatch_updRow, Bool.not_true]
      rw [ih]
      simp

/-- Rows with any other key are untouched by an upsert. -/
theorem fxFilter_nonkey_upsert (p : UpsertForeignExchangeParams) (t : List FxRow) :
    (upsertForeignExchange p t).filter (fun r => !fxKeyMatch p r) =
      t.filter (fun r => !fxKeyMatch p r) := by
  unfold upsertForeignExchange
  split
  · exact fxFilter_nonkey_map p t
  · rw [List.filter_append]
    simp [fxKeyMatch_newRow]

theorem stockKeyMatch_updRow (p : UpsertStockPriceParams) (now : Nat)
    (r : StockRow) : stockKeyMatch p (stockUpdRow p now r) = stockKeyMatch p r := by
  simp [stockKeyMatch, stockUpdRow]

theorem stockKeyMatch_newRow (p : UpsertStockPriceParams) (now : Nat) :
    stockKeyMatch p (stockNewRow p now) = true := by
  simp [stockKeyMatch, stockNewRow]

theorem stockFilter_nonkey_map (p : UpsertStockPriceParams) (now : Nat)
    (t : List StockRow) :
    (t.map (fun r => if stockKeyMatch p r then stockUpdRow p now r else r)).filter
        (fun r => !stockKeyMatch p r) =
      t.filter (fun r => !stockKeyMatch p r) := by
  induction t with
  | nil => rfl
  | cons r t ih =>
    cases hm : stockKeyMatch p r
    · simp only [List.map_cons, hm, Bool.false_eq_true, if_false,
        List.filter_cons, Bool.not_false]
      rw [ih]
    · simp only [List.map_cons, hm, if_true, List.filter_cons,
        stockKeyMatch_updRow, Bool.not_true]
      rw [ih]
      simp

theorem stockFilter_nonkey_upsert (p : UpsertStockPriceParams) (now : Nat)
    (t : List StockRow) :
    (upsertStockPrice p now t).filter (fun r => !stockKeyMatch p r) =
      t.filter (fun r => !stockKeyMatch p r) := by
  unfold upsertStockPrice
  split
  · exact stockFilter_nonkey_map p now t
  · rw [List.filter_append]
    simp [stockKeyMatch_newRow]

/-- Key column values are never modified by the conflict action. -/
theorem fxApply_preserves_key (p : UpsertForeignExchangeParams) (r : FxRow) :
    ((if fxKeyMatch p r then fxUpdRow p r else r).currencyCode = r.currencyCode) ∧
    ((if fxKeyMatch p r then fxUpdRow p r else r).date = r.date) := by
  by_cases h : fxKeyMatch p r <;> simp [h, fxUpdRow]

theorem stockApply_preserves_key (p : UpsertStockPriceParams) (now : Nat)
    (r : StockRow) :
    ((if stockKeyMatch p r then stockUpdRow p now r else r).stockCode = r.stockCode) ∧
    ((if stockKeyMatch p r then stockUpdRow p now r else r).priceDate = r.priceDate) := by
  by_cases h : stockKeyMatch p r <;> simp [h, stockUpdRow]

/-- Upserting preserves the uniqueness constraint. -/
theorem fxUnique_upsert {p : UpsertForeignExchangeParams} {t : List FxRow}
    (hu : fxUnique t) : fxUnique (upsertForeignExchange p t) := by
  unfold upsertForeignExchange
  split
  · rw [fxUnique, List.pairwise_map]
    refine hu.imp ?_
    intro a b hab
    rw [(fxApply_preserves_key p a).1, (fxApply_preserves_key p a).2,
      (fxApply_preserves_key p b).1, (fxApply_preserves_key p b).2]
    exact hab
  · rename_i hany
    rw [fxUnique, List.pairwise_append]
    refine ⟨hu, List.pairwise_singleton _ _, ?_⟩
    intro a ha b hb
    simp only [List.mem_singleton] at hb
    subst hb
    intro hcon
    have : fxKeyMatch p a = true := by
      simp only [fxKeyMatch, decide_eq_true_eq]
      simp only [fxNewRow] at hcon
      exact ⟨hcon.1, hcon.2⟩
    have := List.any_eq_true.mpr ⟨a, ha, this⟩
    exact hany this

theorem stockUnique_upsert {p : UpsertStockPriceParams} {now : Nat}
    {t : List StockRow} (hu : stockUnique t) :
    stockUnique (upsertStockPrice p now t) := by
  unfold upsertStockPrice
  split
  · rw [stockUnique, List.pairwise_map]
    refine hu.imp ?_
    intro a b hab
    rw [(stockApply_preserves_key p now a).1, (stockApply_preserves_key p now a).2,
      (stockApply_preserves_key p now b).1, (stockApply_preserves_key p now b).2]
    exact hab
  · rename_i hany
    rw [stockUnique, List.pairwise_append]
    refine ⟨hu, List.pairwise_singleton _ _, ?_⟩
    intro a ha b hb
    simp only [List.mem_singleton] at hb
    subst hb
    intro hcon
    have : stockKeyMatch p a = true := by
      simp only [stockKeyMatch, decide_eq_true_eq]
      simp only [stockNewRow] at hcon
      exact ⟨hcon.1, hcon.2⟩
    have := List.any_eq_true.mpr ⟨a, ha, this⟩
    exact hany this

theorem countP_not_eq (p : α → Bool) (l : List α) :
    l.countP (fun a => !p a) = l.length - l.countP p := by
  induction l with
  | nil => simp
  | cons a l ih =>
    have hle := l.countP_le_length p
    cases ha : p a
    · simp [List.countP_cons, ha, ih]
      omega
    · simp [List.countP_cons, ha, ih]

/-- C1: the spec asserts the shared shutdown notification is safe to signal
more than once — for every interleaving in which several shutdown causes
fire, no panic and no deadlock occur.  The code violates this: in the
interleaving where the CLI exits and its deferred guard closes
`shutdownChan`, then an OS signal arrives and the main goroutine wakes on
`sigChan` and executes its non-blocking send, the send on the closed
channel panics (the `default` case of a `select` does not protect a send
on a closed channel). -/
theorem C1_shutdown_double_signal_panics :
    ∃ s : Sys, sysReaches sysInit s ∧ s.m = MainSt.panicked := by
  refine ⟨⟨.closed, .panicked, .done, .wait, false⟩, ?_, rfl⟩
  exact Relation.ReflTransGen.head
    (SysStep.sigArrive .open0 .wait .run .wait)
    (Relation.ReflTransGen.head
      (SysStep.cliExit .open0 .wait .wait true)
      (Relation.ReflTransGen.head
        (SysStep.cliGuardClose .wait .wait true)
        (Relation.ReflTransGen.head
          (SysStep.mainRecvSig .closed .done .wait)
          (Relation.ReflTransGen.head
            (SysStep.mainSendClosedPanics .done .wait false)
            Relation.ReflTransGen.refl))))

/-- C8: dispatching a name absent from the registered-command map returns
the distinguished "command not found" error without invoking any handler;
dispatching a present name invokes exactly the handler most recently
registered under it (duplicate registration overwrites). -/
theorem C8_command_dispatch {σ : Type} (m : Registry σ) (s : σ) (cmd : command) :
    (m cmd.Name = none → runCmd m s cmd = Except.error "command not found") ∧
    (∀ f, m cmd.Name = some f → runCmd m s cmd = f s cmd) ∧
    (∀ name f, registerCmd m name f name = some f) ∧
    (∀ name f g, registerCmd (registerCmd m name f) name g name = some g) ∧
    (∀ f g, runCmd (registerCmd (registerCmd m cmd.Name f) cmd.Name g) s cmd
      = g s cmd) := by
  refine ⟨?_, ?_, ?_, ?_, ?_⟩
  · intro h; simp [runCmd, h]
  · intro f h; simp [runCmd, h]
  · intro name f; simp [registerCmd]
  · intro name f g; simp [registerCmd]
  · intro f g; simp [runCmd, registerCmd]

theorem C8_command_dispatch_witness :
    runCmd (emptyRegistry Unit) () ⟨"nope", []⟩ =
      Except.error "command not found" ∧
    runCmd (registerCmd (registerCmd (emptyRegistry Unit) "help"
        (fun _ _ => Except.error "old handler")) "help"
        (fun _ _ => Except.ok ())) () ⟨"help", []⟩ = Except.ok () :=
  ⟨(C8_command_dispatch (emptyRegistry Unit) () ⟨"nope", []⟩).1 rfl,
   (C8_command_dispatch (emptyRegistry Unit) () ⟨"help", []⟩).2.2.2.2
     (fun _ _ => Except.error "old handler") (fun _ _ => Except.ok ())⟩

/-- C9: on a fetched page carrying no "Last Price" container with an
adjacent emphasized value, `handlerStockFetchPrice` fails with the
distinguished field-not-found error — a different error from a
numeric-parse failure — and performs no store upsert. -/
theorem C9_price_field_not_found (cmd : command) (stockCode : String)
    (divs : List HtmlDiv) (pf : String → Option Rat) (storeOk : Bool)
    (today : Date) (baseURL : String)
    (hargs : cmd.Args = [stockCode])
    (hscan : scanPrice divs = none ∨ scanPrice divs = some "") :
    (handlerStockFetchPrice cmd (.httpStatus 200 (.ok divs)) pf storeOk
        today baseURL).1 = Except.error StockFetchErr.fieldNotFound ∧
    (handlerStockFetchPrice cmd (.httpStatus 200 (.ok divs)) pf storeOk
        today baseURL).2 = [] ∧
    (∀ raw, StockFetchErr.fieldNotFound ≠ StockFetchErr.priceParseFailed raw) := by
  unfold handlerStockFetchPrice
  rw [hargs]
  rcases hscan with h | h <;> simp [h]

theorem C9_price_field_not_found_witness :
    (handlerStockFetchPrice ⟨"stock:fetch:price", ["1155"]⟩
        (.httpStatus 200 (.ok [])) demoParseFloat true ⟨2024, 1, 2⟩
        "https://klse.i3investor.com/servlets/stk/").1 =
      Except.error StockFetchErr.fieldNotFound ∧
    (handlerStockFetchPrice ⟨"stock:fetch:price", ["1155"]⟩
        (.httpStatus 200 (.ok [])) demoParseFloat true ⟨2024, 1, 2⟩
        "https://klse.i3investor.com/servlets/stk/").2 = [] ∧
    (∀ raw, StockFetchErr.fieldNotFound ≠ StockFetchErr.priceParseFailed raw) :=
  C9_price_field_not_found ⟨"stock:fetch:price", ["1155"]⟩ "1155" []
    demoParseFloat true ⟨2024, 1, 2⟩ "https://klse.i3investor.com/servlets/stk/"
    rfl (Or.inl rfl)

/-- C10: in both query handlers a stored row contributes a JSON item if and
only if its stored numeric string parses as a number; a row whose string
fails to parse is skipped so the response array may be shorter than the
row set, and a successful query still answers 200 with the filtered
array. -/
theorem C10_response_row_filtering (pf : String → Option Rat) :
    (∀ rows : List FxDbRow,
      fxResponseLoop pf rows =
        rows.filterMap (fun r => (pf r.middleRate).map
          (fun v => TimeSeriesDataPoint.mk (formatDate r.date) v)) ∧
      (fxResponseLoop pf rows).length =
        rows.countP (fun r => (pf r.middleRate).isSome)) ∧
    (∀ rows : List StockDbRow,
      stockResponseLoop pf rows =
        rows.filterMap (fun r => (pf r.closingPrice).map
          (fun v => StockPriceDetailResponseItem.mk (formatDate r.priceDate) v
            r.companyName r.stockCode)) ∧
      (stockResponseLoop pf rows).length =
        rows.countP (fun r => (pf r.closingPrice).isSome)) ∧
    (∀ (code sS eS : String) (S E : Date)
        (db : Date → Date → Except DbErr (List FxDbRow)) (rows : List FxDbRow),
      code ≠ "" → sS ≠ "" → eS ≠ "" → code.length = 3 →
      parseDate sS = some S → parseDate eS = some E → db S E = Except.ok rows →
      handleGetFxRates pf "GET" code sS eS db =
        ⟨200, .fxJson (fxResponseLoop pf rows)⟩) ∧
    (∀ (code sS eS : String) (S E : Date)
        (db : Date → Date → Except DbErr (List StockDbRow)) (rows : List StockDbRow),
      code ≠ "" → sS ≠ "" → eS ≠ "" →
      parseDate sS = some S → parseDate eS = some E → db S E = Except.ok rows →
      handleGetStockPrices pf "GET" code sS eS db =
        ⟨200, .stockJson (stockResponseLoop pf rows)⟩) := by
  refine ⟨?_, ?_, ?_, ?_⟩
  · intro rows
    induction rows with
    | nil => exact ⟨rfl, rfl⟩
    | cons r rest ih =>
      obtain ⟨ih1, ih2⟩ := ih
      cases hv : pf r.middleRate <;>
        exact ⟨by simp [fxResponseLoop, List.filterMap_cons, hv, ih1],
          by simp [fxResponseLoop, List.countP_cons, hv, ih2]⟩
  · intro rows
    induction rows with
    | nil => exact ⟨rfl, rfl⟩
    | cons r rest ih =>
      obtain ⟨ih1, ih2⟩ := ih
      cases hv : pf r.closingPrice <;>
        exact ⟨by simp [stockResponseLoop, List.filterMap_cons, hv, ih1],
          by simp [stockResponseLoop, List.countP_cons, hv, ih2]⟩
  · intro code sS eS S E db rows hc hs he hlen hps hpe hdb
    unfold handleGetFxRates
    rw [if_neg (by simp), if_neg (by simp [hc, hs, he]), if_neg (by simp [hlen]),
      hps, hpe]
    simp only [hdb]
  · intro code sS eS S E db rows hc hs he hps hpe hdb
    unfold handleGetStockPrices
    rw [if_neg (by simp), if_neg (by simp [hc, hs, he]), hps, hpe]
    simp only [hdb]

theorem C10_response_row_filtering_witness :
    handleGetFxRates demoParseFloat "GET" "USD" "2024-01-01" "2024-01-03"
        demoFxDb =
      ⟨200, .fxJson (fxResponseLoop demoParseFloat [demoFxDbRow])⟩ ∧
    handleGetStockPrices demoParseFloat "GET" "1155" "2024-01-01" "2024-01-03"
        demoStockDb =
      ⟨200, .stockJson (stockResponseLoop demoParseFloat [demoStockDbRow])⟩ :=
  ⟨(C10_response_row_filtering demoParseFloat).2.2.1 "USD" "2024-01-01"
      "2024-01-03" ⟨2024, 1, 1⟩ ⟨2024, 1, 3⟩ demoFxDb [demoFxDbRow]
      (by decide) (by decide) (by decide) (by decide) (by decide) (by decide) rfl,
   (C10_response_row_filtering demoParseFloat).2.2.2 "1155" "2024-01-01"
      "2024-01-03" ⟨2024, 1, 1⟩ ⟨2024, 1, 3⟩ demoStockDb [demoStockDbRow]
      (by decide) (by decide) (by decide) (by decide) (by decide) rfl⟩

/-- C2 counterexample: with FX_API_BASE_URL configured and a successful
batch fetch — so no precondition is violated — one entry whose date field
is malformed makes `handlerFxFetchAll` return an error mid-batch, and the
following entry is never processed (no upsert is attempted at all), where
the claim requires the entry to be logged and skipped with the remaining
entries still processed. -/
theorem C2_fetch_all_counterexample :
    demoCfg.FXAPIBaseURL ≠ "" ∧
    (handlerFxFetchAll demoCfg (Except.ok ⟨[c2BadEntry, c2GoodEntry]⟩)
        (fun _ => true) 0).1 = Except.error "failed to parse date" ∧
    (handlerFxFetchAll demoCfg (Except.ok ⟨[c2BadEntry, c2GoodEntry]⟩)
        (fun _ => true) 0).2 = [] := by
  refine ⟨by decide, rfl, rfl⟩

/-- C2 (amended): in `handlerFxFetchAll`, a store failure on one entry is
logged and skipped and the remaining entries are still processed — the
store outcome changes neither the result nor the attempted entries — but a
malformed date field on an entry makes the handler return a parse error,
aborting the remaining entries; given a configured base URL and a
successful batch fetch, the handler succeeds exactly when every returned
entry has a well-formed date, and the attempted upserts are exactly the
longest prefix of entries with well-formed dates. -/
theorem C2_fetch_all_amended (cfg : Config) (resp : MultiRateApiResponse)
    (storeOk storeOk2 : Nat → Bool) (now : Nat)
    (hcfg : cfg.FXAPIBaseURL ≠ "") :
    ((handlerFxFetchAll cfg (Except.ok resp) storeOk now).1 = Except.ok ()
      ↔ resp.data.all entryDateOk = true) ∧
    (resp.data.all entryDateOk = false →
      (handlerFxFetchAll cfg (Except.ok resp) storeOk now).1 =
        Except.error "failed to parse date") ∧
    ((handlerFxFetchAll cfg (Except.ok resp) storeOk now).2.map
        (fun p => (p.CurrencyCode, p.date)) =
      (resp.data.takeWhile entryDateOk).map
        (fun r => (r.currencyCode, (parseDate r.rate.date).getD ⟨0, 0, 0⟩))) ∧
    handlerFxFetchAll cfg (Except.ok resp) storeOk2 now =
      handlerFxFetchAll cfg (Except.ok resp) storeOk now := by
  have hred : handlerFxFetchAll cfg (Except.ok resp) storeOk now =
      fetchAllLoop storeOk now resp.data 0 := by
    unfold handlerFxFetchAll
    rw [if_neg hcfg]
  have hred2 : handlerFxFetchAll cfg (Except.ok resp) storeOk2 now =
      fetchAllLoop storeOk2 now resp.data 0 := by
    unfold handlerFxFetchAll
    rw [if_neg hcfg]
  obtain ⟨h1, h2⟩ := fetchAllLoop_spec storeOk now resp.data 0
  refine ⟨?_, ?_, ?_, ?_⟩
  · rw [hred, h1]
    cases hall : resp.data.all entryDateOk <;> simp
  · intro hall
    rw [hred, h1, hall]
    simp
  · rw [hred]
    exact h2
  · rw [hred, hred2]
    exact fetchAllLoop_store_irrel storeOk2 storeOk now resp.data 0

theorem C2_fetch_all_amended_witness :
    ((handlerFxFetchAll demoCfg (Except.ok ⟨[c2GoodEntry]⟩)
        (fun _ => true) 0).1 = Except.ok ()
      ↔ ([c2GoodEntry] : List CurrencyRateMulti).all entryDateOk = true) ∧
    (([c2GoodEntry] : List CurrencyRateMulti).all entryDateOk = false →
      (handlerFxFetchAll demoCfg (Except.ok ⟨[c2GoodEntry]⟩)
        (fun _ => true) 0).1 = Except.error "failed to parse date") ∧
    ((handlerFxFetchAll demoCfg (Except.ok ⟨[c2GoodEntry]⟩)
        (fun _ => true) 0).2.map (fun p => (p.CurrencyCode, p.date)) =
      (([c2GoodEntry] : List CurrencyRateMulti).takeWhile entryDateOk).map
        (fun r => (r.currencyCode, (parseDate r.rate.date).getD ⟨0, 0, 0⟩))) ∧
    handlerFxFetchAll demoCfg (Except.ok ⟨[c2GoodEntry]⟩) (fun _ => false) 0 =
      handlerFxFetchAll demoCfg (Except.ok ⟨[c2GoodEntry]⟩) (fun _ => true) 0 :=
  C2_fetch_all_amended demoCfg ⟨[c2GoodEntry]⟩ (fun _ => true) (fun _ => false) 0
    (by decide)

theorem stockKeyMatch_congr {p q : UpsertStockPriceParams}
    (hc : p.StockCode = q.StockCode) (hd : p.PriceDate = q.PriceDate) :
    stockKeyMatch p = stockKeyMatch q := by
  funext r
  simp [stockKeyMatch, hc, hd]

/-- C6: upserting twice with the same (instrument, date) key and different
values — both for exchange rates and for stock prices — leaves exactly one
row with that key, holding the values of the second upsert with the
capture/extraction timestamp refreshed, while rows with other keys are
unchanged. -/
theorem C6_upsert_latest_wins
    (t : List FxRow) (hu : fxUnique t) (p1 p2 : UpsertForeignExchangeParams)
    (hkc : p2.CurrencyCode = p1.CurrencyCode) (hkd : p2.date = p1.date)
    (ts : List StockRow) (hus : stockUnique ts) (q1 q2 : UpsertStockPriceParams)
    (hqc : q2.StockCode = q1.StockCode) (hqd : q2.PriceDate = q1.PriceDate)
    (now1 now2 : Nat) :
    (((upsertForeignExchange p2 (upsertForeignExchange p1 t)).filter
        (fxKeyMatch p2)).length = 1 ∧
     (∀ r ∈ upsertForeignExchange p2 (upsertForeignExchange p1 t),
        fxKeyMatch p2 r = true →
        r.buyingRate = p2.BuyingRate ∧ r.sellingRate = p2.SellingRate ∧
        r.middleRate = p2.MiddleRate ∧ r.createdAt = p2.CreatedAt) ∧
     (upsertForeignExchange p2 (upsertForeignExchange p1 t)).filter
        (fun r => !fxKeyMatch p2 r) = t.filter (fun r => !fxKeyMatch p2 r)) ∧
    (((upsertStockPrice q2 now2 (upsertStockPrice q1 now1 ts)).filter
        (stockKeyMatch q2)).length = 1 ∧
     (∀ r ∈ upsertStockPrice q2 now2 (upsertStockPrice q1 now1 ts),
        stockKeyMatch q2 r = true →
        r.closingPrice = q2.ClosingPrice ∧ r.sourceUrl = q2.SourceUrl ∧
        r.extractedAt = now2) ∧
     (upsertStockPrice q2 now2 (upsertStockPrice q1 now1 ts)).filter
        (fun r => !stockKeyMatch q2 r) = ts.filter (fun r => !stockKeyMatch q2 r)) := by
  have hu1 : fxUnique (upsertForeignExchange p1 t) := fxUnique_upsert hu
  have hus1 : stockUnique (upsertStockPrice q1 now1 ts) := stockUnique_upsert hus
  have hkey : (upsertForeignExchange p2 (upsertForeignExchange p1 t)).filter
      (fxKeyMatch p2) =
      [((upsertForeignExchange p1 t).find? (fxKeyMatch p2)).elim (fxNewRow p2)
        (fxUpdRow p2)] := fxFilter_key_upsert hu1
  have hkeyS : (upsertStockPrice q2 now2 (upsertStockPrice q1 now1 ts)).filter
      (stockKeyMatch q2) =
      [((upsertStockPrice q1 now1 ts).find? (stockKeyMatch q2)).elim
        (stockNewRow q2 now2) (stockUpdRow q2 now2)] := stockFilter_key_upsert hus1
  refine ⟨⟨by rw [hkey]; rfl, ?_, ?_⟩, ⟨by rw [hkeyS]; rfl, ?_, ?_⟩⟩
  · intro r hr hkr
    have hmem : r ∈ (upsertForeignExchange p2 (upsertForeignExchange p1 t)).filter
        (fxKeyMatch p2) := List.mem_filter.mpr ⟨hr, hkr⟩
    rw [hkey] at hmem
    simp only [List.mem_singleton] at hmem
    subst hmem
    cases hfind : (upsertForeignExchange p1 t).find? (fxKeyMatch p2) <;>
      simp [hfind, Option.elim, fxNewRow, fxUpdRow]
  · rw [fxFilter_nonkey_upsert p2 (upsertForeignExchange p1 t),
      fxKeyMatch_congr hkc hkd, fxFilter_nonkey_upsert p1 t]
  · intro r hr hkr
    have hmem : r ∈ (upsertStockPrice q2 now2 (upsertStockPrice q1 now1 ts)).filter
        (stockKeyMatch q2) := List.mem_filter.mpr ⟨hr, hkr⟩
    rw [hkeyS] at hmem
    simp only [List.mem_singleton] at hmem
    subst hmem
    cases hfind : (upsertStockPrice q1 now1 ts).find? (stockKeyMatch q2) <;>
      simp [hfind, Option.elim, stockNewRow, stockUpdRow]
  · rw [stockFilter_nonkey_upsert q2 now2 (upsertStockPrice q1 now1 ts),
      stockKeyMatch_congr hqc hqd, stockFilter_nonkey_upsert q1 now1 ts]

theorem C6_upsert_latest_wins_witness :
    (((upsertForeignExchange demoFxP2 (upsertForeignExchange demoFxP1 [])).filter
        (fxKeyMatch demoFxP2)).length = 1 ∧
     (∀ r ∈ upsertForeignExchange demoFxP2 (upsertForeignExchange demoFxP1 []),
        fxKeyMatch demoFxP2 r = true →
        r.buyingRate = demoFxP2.BuyingRate ∧ r.sellingRate = demoFxP2.SellingRate ∧
        r.middleRate = demoFxP2.MiddleRate ∧ r.createdAt = demoFxP2.CreatedAt) ∧
     (upsertForeignExchange demoFxP2 (upsertForeignExchange demoFxP1 [])).filter
        (fun r => !fxKeyMatch demoFxP2 r) =
      ([] : List FxRow).filter (fun r => !fxKeyMatch demoFxP2 r)) ∧
    (((upsertStockPrice demoStockQ2 200 (upsertStockPrice demoStockQ1 100 [])).filter
        (stockKeyMatch demoStockQ2)).length = 1 ∧
     (∀ r ∈ upsertStockPrice demoStockQ2 200 (upsertStockPrice demoStockQ1 100 []),
        stockKeyMatch demoStockQ2 r = true →
        r.closingPrice = demoStockQ2.ClosingPrice ∧
        r.sourceUrl = demoStockQ2.SourceUrl ∧ r.extractedAt = 200) ∧
     (upsertStockPrice demoStockQ2 200 (upsertStockPrice demoStockQ1 100 [])).filter
        (fun r => !stockKeyMatch demoStockQ2 r) =
      ([] : List StockRow).filter (fun r => !stockKeyMatch demoStockQ2 r)) :=
  C6_upsert_latest_wins [] (by simp [fxUnique]) demoFxP1 demoFxP2 rfl rfl
    [] (by simp [stockUnique]) demoStockQ1 demoStockQ2 rfl rfl 100 200

/-- C7: for GET /api/fx/rates, a non-GET method answers 405; a missing or
malformed parameter (empty value, non-3-character code, date not parsing
as YYYY-MM-DD) answers 400; a store failure other than the no-rows marker
answers 500 with a generic body; and a successful query with zero rows
(or the no-rows marker) answers 200 with an empty JSON array. -/
theorem C7_fx_rates_status_mapping (pf : String → Option Rat)
    (method code sS eS : String)
    (db : Date → Date → Except DbErr (List FxDbRow)) :
    (method ≠ "GET" →
      handleGetFxRates pf method code sS eS db =
        ⟨405, .errorText "Method Not Allowed"⟩) ∧
    (method = "GET" → (code = "" ∨ sS = "" ∨ eS = "") →
      (handleGetFxRates pf method code sS eS db).status = 400) ∧
    (method = "GET" → code ≠ "" → sS ≠ "" → eS ≠ "" → code.length ≠ 3 →
      (handleGetFxRates pf method code sS eS db).status = 400) ∧
    (method = "GET" → code ≠ "" → sS ≠ "" → eS ≠ "" → code.length = 3 →
      (parseDate sS = none ∨ parseDate eS = none) →
      (handleGetFxRates pf method code sS eS db).status = 400) ∧
    (∀ S E msg, method = "GET" → code ≠ "" → sS ≠ "" → eS ≠ "" →
      code.length = 3 → parseDate sS = some S → parseDate eS = some E →
      db S E = Except.error (DbErr.other msg) →
      handleGetFxRates pf method code sS eS db =
        ⟨500, .errorText "Internal Server Error"⟩) ∧
    (∀ S E, method = "GET" → code ≠ "" → sS ≠ "" → eS ≠ "" →
      code.length = 3 → parseDate sS = some S → parseDate eS = some E →
      db S E = Except.error DbErr.noRows →
      handleGetFxRates pf method code sS eS db = ⟨200, .fxJson []⟩) ∧
    (∀ S E, method = "GET" → code ≠ "" → sS ≠ "" → eS ≠ "" →
      code.length = 3 → parseDate sS = some S → parseDate eS = some E →
      db S E = Except.ok [] →
      handleGetFxRates pf method code sS eS db = ⟨200, .fxJson []⟩) := by
  refine ⟨?_, ?_, ?_, ?_, ?_, ?_, ?_⟩
  · intro hm
    unfold handleGetFxRates
    rw [if_pos hm]
  · intro hm hmiss
    subst hm
    unfold handleGetFxRates
    rw [if_neg (by simp), if_pos hmiss]
  · intro hm hc hs he hlen
    subst hm
    unfold handleGetFxRates
    rw [if_neg (by simp), if_neg (by simp [hc, hs, he]), if_pos hlen]
  · intro hm hc hs he hlen hbad
    subst hm
    unfold handleGetFxRates
    rw [if_neg (by simp), if_neg (by simp [hc, hs, he]), if_neg (by simp [hlen])]
    rcases hbad with hbad | hbad
    · rw [hbad]
    · cases hfirst : parseDate sS
      · rfl
      · rw [hbad]
  · intro S E msg hm hc hs he hlen hps hpe hdb
    subst hm
    unfold handleGetFxRates
    rw [if_neg (by simp), if_neg (by simp [hc, hs, he]), if_neg (by simp [hlen]),
      hps, hpe]
    simp only [hdb]
  · intro S E hm hc hs he hlen hps hpe hdb
    subst hm
    unfold handleGetFxRates
    rw [if_neg (by simp), if_neg (by simp [hc, hs, he]), if_neg (by simp [hlen]),
      hps, hpe]
    simp only [hdb]
  · intro S E hm hc hs he hlen hps hpe hdb
    subst hm
    unfold handleGetFxRates
    rw [if_neg (by simp), if_neg (by simp [hc, hs, he]), if_neg (by simp [hlen]),
      hps, hpe]
    simp only [hdb]
    rfl

theorem C7_fx_rates_status_mapping_witness :
    handleGetFxRates demoParseFloat "POST" "USD" "2024-01-01" "2024-01-03"
        demoFxDb = ⟨405, .errorText "Method Not Allowed"⟩ ∧
    (handleGetFxRates demoParseFloat "GET" "" "2024-01-01" "2024-01-03"
        demoFxDb).status = 400 ∧
    (handleGetFxRates demoParseFloat "GET" "USDX" "2024-01-01" "2024-01-03"
        demoFxDb).status = 400 ∧
    (handleGetFxRates demoParseFloat "GET" "USD" "2024-13-40" "2024-01-03"
        demoFxDb).status = 400 ∧
    handleGetFxRates demoParseFloat "GET" "USD" "2024-01-01" "2024-01-03"
        demoFxDbErr = ⟨500, .errorText "Internal Server Error"⟩ ∧
    handleGetFxRates demoParseFloat "GET" "USD" "2024-01-01" "2024-01-03"
        demoFxDbNoRows = ⟨200, .fxJson []⟩ ∧
    handleGetFxRates demoParseFloat "GET" "USD" "2024-01-01" "2024-01-03"
        demoFxDbEmpty = ⟨200, .fxJson []⟩ :=
  ⟨(C7_fx_rates_status_mapping demoParseFloat "POST" "USD" "2024-01-01"
      "2024-01-03" demoFxDb).1 (by decide),
   (C7_fx_rates_status_mapping demoParseFloat "GET" "" "2024-01-01"
      "2024-01-03" demoFxDb).2.1 rfl (Or.inl rfl),
   (C7_fx_rates_status_mapping demoParseFloat "GET" "USDX" "2024-01-01"
      "2024-01-03" demoFxDb).2.2.1 rfl (by decide) (by decide) (by decide)
      (by decide),
   (C7_fx_rates_status_mapping demoParseFloat "GET" "USD" "2024-13-40"
      "2024-01-03" demoFxDb).2.2.2.1 rfl (by decide) (by decide) (by decide)
      (by decide) (Or.inl (by decide)),
   (C7_fx_rates_status_mapping demoParseFloat "GET" "USD" "2024-01-01"
      "2024-01-03" demoFxDbErr).2.2.2.2.1 ⟨2024, 1, 1⟩ ⟨2024, 1, 3⟩
      "connection reset" rfl (by decide) (by decide) (by decide) (by decide)
      (by decide) (by decide) rfl,
   (C7_fx_rates_status_mapping demoParseFloat "GET" "USD" "2024-01-01"
      "2024-01-03" demoFxDbNoRows).2.2.2.2.2.1 ⟨2024, 1, 1⟩ ⟨2024, 1, 3⟩
      rfl (by decide) (by decide) (by decide) (by decide) (by decide)
      (by decide) rfl,
   (C7_fx_rates_status_mapping demoParseFloat "GET" "USD" "2024-01-01"
      "2024-01-03" demoFxDbEmpty).2.2.2.2.2.2 ⟨2024, 1, 1⟩ ⟨2024, 1, 3⟩
      rfl (by decide) (by decide) (by decide) (by decide) (by decide)
      (by decide) rfl⟩

/-- Reduction of `handlerFxFetchRange` on a fully valid request: all
validation passes and the outcome is the per-date loop over the formatted
closed-interval date list, wrapped in a nil error. -/
theorem handlerFxFetchRange_reduces (cfg : Config) (cmd : command)
    (fetch : String → String → Except String SingleRateApiResponse)
    (storeOk : Nat → Bool) (now : Nat) (c sd ed : String) (S E : Date)
    (hcfg : cfg.FXAPIBaseURL ≠ "") (hargs : cmd.Args = [c, sd, ed])
    (hcode : (goToUpper c).length = 3) (hps : parseDate sd = some S)
    (hpe : parseDate ed = some E) (hrange : ¬ dlt E S) :
    handlerFxFetchRange cfg cmd fetch storeOk now =
      ⟨Except.ok (),
        (rangeLoop fetch storeOk (goToUpper c) now
          ((fxDateList S E).map formatDate) 0 zeroSummary).1,
        (rangeLoop fetch storeOk (goToUpper c) now
          ((fxDateList S E).map formatDate) 0 zeroSummary).2.1,
        (rangeLoop fetch storeOk (goToUpper c) now
          ((fxDateList S E).map formatDate) 0 zeroSummary).2.2⟩ := by
  have hSv := parseDate_valid hps
  have hEv := parseDate_valid hpe
  have hmem : S ∈ fxDateList S E :=
    ((fxDateList_spec hSv hEv).1 S).mpr ⟨hSv, dlt_irrefl S, hrange⟩
  have hne : ¬ ((fxDateList S E).map formatDate).length = 0 := by
    intro h0
    rw [List.length_map, List.length_eq_zero] at h0
    rw [h0] at hmem
    exact List.not_mem_nil S hmem
  unfold handlerFxFetchRange
  rw [if_neg hcfg, hargs]
  simp only [hps, hpe, if_neg hrange, if_neg hne, if_neg (by simp [hcode] :
    ¬ (goToUpper c).length ≠ 3)]

/-- C3: a valid range request over the N days of the closed interval
attempts exactly one fetch per day in order, counts M fetch failures and
N − M fetch successes where M is the number of days whose fetch errors
(404 included), returns nil rather than an error regardless of per-date
fetch or store outcomes, and never stops before the last day. -/
theorem C3_range_per_day_isolation (cfg : Config) (cmd : command)
    (fetch : String → String → Except String SingleRateApiResponse)
    (storeOk : Nat → Bool) (now : Nat) (c sd ed : String) (S E : Date)
    (hcfg : cfg.FXAPIBaseURL ≠ "") (hargs : cmd.Args = [c, sd, ed])
    (hcode : (goToUpper c).length = 3) (hps : parseDate sd = some S)
    (hpe : parseDate ed = some E) (hrange : ¬ dlt E S) :
    (handlerFxFetchRange cfg cmd fetch storeOk now).result = Except.ok () ∧
    (handlerFxFetchRange cfg cmd fetch storeOk now).fetchCalls =
      ((fxDateList S E).map formatDate).map (fun ds => (goToUpper c, ds)) ∧
    (handlerFxFetchRange cfg cmd fetch storeOk now).fetchCalls.length =
      ((fxDateList S E).map formatDate).length ∧
    (handlerFxFetchRange cfg cmd fetch storeOk now).summary.failedFetches =
      ((fxDateList S E).map formatDate).countP
        (fun ds => isErr (fetch (goToUpper c) ds)) ∧
    (handlerFxFetchRange cfg cmd fetch storeOk now).summary.successfulFetches =
      ((fxDateList S E).map formatDate).length -
        ((fxDateList S E).map formatDate).countP
          (fun ds => isErr (fetch (goToUpper c) ds)) := by
  rw [handlerFxFetchRange_reduces cfg cmd fetch storeOk now c sd ed S E hcfg
    hargs hcode hps hpe hrange]
  obtain ⟨l1, l2, l3⟩ := rangeLoop_spec fetch storeOk (goToUpper c) now
    ((fxDateList S E).map formatDate) 0 zeroSummary
  refine ⟨rfl, l1, by rw [l1, List.length_map, List.length_map], ?_, ?_⟩
  · simpa [zeroSummary] using l2
  · have hcnt := countP_not_eq (fun ds => isErr (fetch (goToUpper c) ds))
      ((fxDateList S E).map formatDate)
    have h := l3
    rw [hcnt] at h
    simpa [zeroSummary] using h

theorem C3_range_per_day_isolation_witness :
    (handlerFxFetchRange demoCfg demoRangeCmd demoFetch (fun _ => true) 0).result
      = Except.ok () ∧
    (handlerFxFetchRange demoCfg demoRangeCmd demoFetch (fun _ => true) 0).fetchCalls =
      ((fxDateList ⟨1, 1, 1⟩ ⟨1, 1, 3⟩).map formatDate).map
        (fun ds => (goToUpper "usd", ds)) ∧
    (handlerFxFetchRange demoCfg demoRangeCmd demoFetch
        (fun _ => true) 0).fetchCalls.length =
      ((fxDateList ⟨1, 1, 1⟩ ⟨1, 1, 3⟩).map formatDate).length ∧
    (handlerFxFetchRange demoCfg demoRangeCmd demoFetch
        (fun _ => true) 0).summary.failedFetches =
      ((fxDateList ⟨1, 1, 1⟩ ⟨1, 1, 3⟩).map formatDate).countP
        (fun ds => isErr (demoFetch (goToUpper "usd") ds)) ∧
    (handlerFxFetchRange demoCfg demoRangeCmd demoFetch
        (fun _ => true) 0).summary.successfulFetches =
      ((fxDateList ⟨1, 1, 1⟩ ⟨1, 1, 3⟩).map formatDate).length -
        ((fxDateList ⟨1, 1, 1⟩ ⟨1, 1, 3⟩).map formatDate).countP
          (fun ds => isErr (demoFetch (goToUpper "usd") ds)) :=
  C3_range_per_day_isolation demoCfg demoRangeCmd demoFetch (fun _ => true) 0
    "usd" "0001-01-01" "0001-01-03" ⟨1, 1, 1⟩ ⟨1, 1, 3⟩ (by decide) rfl
    (by decide) (by decide) (by decide) (by decide)

/-- C4: a range request with a wrong argument count, a code that is not
exactly 3 characters after uppercasing, or an end date strictly before the
start date is rejected with an error before any network fetch is issued
and before any store write is attempted. -/
theorem C4_range_validation_rejects (cfg : Config) (cmd : command)
    (fetch : String → String → Except String SingleRateApiResponse)
    (storeOk : Nat → Bool) (now : Nat) :
    (cmd.Args.length ≠ 3 →
      isErr (handlerFxFetchRange cfg cmd fetch storeOk now).result = true ∧
      (handlerFxFetchRange cfg cmd fetch storeOk now).fetchCalls = [] ∧
      (handlerFxFetchRange cfg cmd fetch storeOk now).storeCalls = []) ∧
    (∀ c sd ed, cmd.Args = [c, sd, ed] → (goToUpper c).length ≠ 3 →
      isErr (handlerFxFetchRange cfg cmd fetch storeOk now).result = true ∧
      (handlerFxFetchRange cfg cmd fetch storeOk now).fetchCalls = [] ∧
      (handlerFxFetchRange cfg cmd fetch storeOk now).storeCalls = []) ∧
    (∀ c sd ed S E, cmd.Args = [c, sd, ed] → parseDate sd = some S →
      parseDate ed = some E → dlt E S →
      isErr (handlerFxFetchRange cfg cmd fetch storeOk now).result = true ∧
      (handlerFxFetchRange cfg cmd fetch storeOk now).fetchCalls = [] ∧
      (handlerFxFetchRange cfg cmd fetch storeOk now).storeCalls = []) := by
  obtain ⟨nm, args⟩ := cmd
  refine ⟨?_, ?_, ?_⟩
  · intro hlen
    by_cases hc : cfg.FXAPIBaseURL = ""
    · unfold handlerFxFetchRange
      rw [if_pos hc]
      exact ⟨rfl, rfl, rfl⟩
    · unfold handlerFxFetchRange
      rw [if_neg hc]
      simp only [command.Args] at hlen
      rcases args with _ | ⟨a, _ | ⟨b, _ | ⟨c3, _ | ⟨d, rest⟩⟩⟩⟩
      · exact ⟨rfl, rfl, rfl⟩
      · exact ⟨rfl, rfl, rfl⟩
      · exact ⟨rfl, rfl, rfl⟩
      · simp at hlen
      · exact ⟨rfl, rfl, rfl⟩
  · intro c sd ed hargs hup
    simp only [command.Args] at hargs
    subst hargs
    by_cases hc : cfg.FXAPIBaseURL = ""
    · unfold handlerFxFetchRange
      rw [if_pos hc]
      exact ⟨rfl, rfl, rfl⟩
    · unfold handlerFxFetchRange
      rw [if_neg hc]
      simp only [if_pos hup]
      exact ⟨by simp [isErr], by simp, by simp⟩
  · intro c sd ed S E hargs hps hpe hlt
    simp only [command.Args] at hargs
    subst hargs
    by_cases hc : cfg.FXAPIBaseURL = ""
    · unfold handlerFxFetchRange
      rw [if_pos hc]
      exact ⟨rfl, rfl, rfl⟩
    · unfold handlerFxFetchRange
      rw [if_neg hc]
      by_cases hup : (goToUpper c).length ≠ 3
      · simp only [if_pos hup]
        exact ⟨by simp [isErr], by simp, by simp⟩
      · simp only [if_neg hup, hps, hpe, if_pos hlt]
        exact ⟨by simp [isErr], by simp, by simp⟩

theorem C4_range_validation_rejects_witness :
    (isErr (handlerFxFetchRange demoCfg ⟨"fx:fetch:range", ["USD", "2024-01-01"]⟩
        demoFetch (fun _ => true) 0).result = true ∧
      (handlerFxFetchRange demoCfg ⟨"fx:fetch:range", ["USD", "2024-01-01"]⟩
        demoFetch (fun _ => true) 0).fetchCalls = [] ∧
      (handlerFxFetchRange demoCfg ⟨"fx:fetch:range", ["USD", "2024-01-01"]⟩
        demoFetch (fun _ => true) 0).storeCalls = []) ∧
    (isErr (handlerFxFetchRange demoCfg
        ⟨"fx:fetch:range", ["usdollar", "2024-01-01", "2024-01-02"]⟩
        demoFetch (fun _ => true) 0).result = true ∧
      (handlerFxFetchRange demoCfg
        ⟨"fx:fetch:range", ["usdollar", "2024-01-01", "2024-01-02"]⟩
        demoFetch (fun _ => true) 0).fetchCalls = [] ∧
      (handlerFxFetchRange demoCfg
        ⟨"fx:fetch:range", ["usdollar", "2024-01-01", "2024-01-02"]⟩
        demoFetch (fun _ => true) 0).storeCalls = []) ∧
    (isErr (handlerFxFetchRange demoCfg
        ⟨"fx:fetch:range", ["usd", "0001-01-05", "0001-01-02"]⟩
        demoFetch (fun _ => true) 0).result = true ∧
      (handlerFxFetchRange demoCfg
        ⟨"fx:fetch:range", ["usd", "0001-01-05", "0001-01-02"]⟩
        demoFetch (fun _ => true) 0).fetchCalls = [] ∧
      (handlerFxFetchRange demoCfg
        ⟨"fx:fetch:range", ["usd", "0001-01-05", "0001-01-02"]⟩
        demoFetch (fun _ => true) 0).storeCalls = []) :=
  ⟨(C4_range_validation_rejects demoCfg ⟨"fx:fetch:range", ["USD", "2024-01-01"]⟩
      demoFetch (fun _ => true) 0).1 (by decide),
   (C4_range_validation_rejects demoCfg
      ⟨"fx:fetch:range", ["usdollar", "2024-01-01", "2024-01-02"]⟩
      demoFetch (fun _ => true) 0).2.1 "usdollar" "2024-01-01" "2024-01-02"
      rfl (by decide),
   (C4_range_validation_rejects demoCfg
      ⟨"fx:fetch:range", ["usd", "0001-01-05", "0001-01-02"]⟩
      demoFetch (fun _ => true) 0).2.2 "usd" "0001-01-05" "0001-01-02"
      ⟨1, 1, 5⟩ ⟨1, 1, 2⟩ rfl (by decide) (by decide) (by decide)⟩

/-- C5: for a valid request, the date list enumerates exactly the calendar
days of the closed interval between start and end — both endpoints
included, each day valid, in strictly ascending calendar order starting at
the start date — and the per-date fetches are issued in exactly that
order. -/
theorem C5_range_date_enumeration (cfg : Config) (cmd : command)
    (fetch : String → String → Except String SingleRateApiResponse)
    (storeOk : Nat → Bool) (now : Nat) (c sd ed : String) (S E : Date)
    (hcfg : cfg.FXAPIBaseURL ≠ "") (hargs : cmd.Args = [c, sd, ed])
    (hcode : (goToUpper c).length = 3) (hps : parseDate sd = some S)
    (hpe : parseDate ed = some E) (hrange : ¬ dlt E S) :
    (∀ x : Date, x ∈ fxDateList S E ↔ (x.valid ∧ ¬ dlt x S ∧ ¬ dlt E x)) ∧
    List.Chain' dlt (fxDateList S E) ∧
    (fxDateList S E).head? = some S ∧
    (handlerFxFetchRange cfg cmd fetch storeOk now).fetchCalls =
      (fxDateList S E).map (fun d => (goToUpper c, formatDate d)) := by
  have hSv := parseDate_valid hps
  have hEv := parseDate_valid hpe
  obtain ⟨hmemiff, hchain, hhead⟩ := fxDateList_spec hSv hEv
  have hmem : S ∈ fxDateList S E := (hmemiff S).mpr ⟨hSv, dlt_irrefl S, hrange⟩
  refine ⟨hmemiff, hchain, ?_, ?_⟩
  · rcases hl : fxDateList S E with _ | ⟨a, tl⟩
    · rw [hl] at hmem
      exact absurd hmem (List.not_mem_nil S)
    · have ha : a = S := hhead a (by rw [hl]; rfl)
      rw [List.head?_cons, ha]
  · rw [handlerFxFetchRange_reduces cfg cmd fetch storeOk now c sd ed S E hcfg
      hargs hcode hps hpe hrange]
    obtain ⟨l1, _, _⟩ := rangeLoop_spec fetch storeOk (goToUpper c) now
      ((fxDateList S E).map formatDate) 0 zeroSummary
    rw [l1, List.map_map]
    rfl

theorem C5_range_date_enumeration_witness :
    (∀ x : Date, x ∈ fxDateList ⟨1, 1, 1⟩ ⟨1, 1, 3⟩ ↔
      (x.valid ∧ ¬ dlt x ⟨1, 1, 1⟩ ∧ ¬ dlt ⟨1, 1, 3⟩ x)) ∧
    List.Chain' dlt (fxDateList ⟨1, 1, 1⟩ ⟨1, 1, 3⟩) ∧
    (fxDateList ⟨1, 1, 1⟩ ⟨1, 1, 3⟩).head? = some ⟨1, 1, 1⟩ ∧
    (handlerFxFetchRange demoCfg demoRangeCmd demoFetch (fun _ => true) 0).fetchCalls =
      (fxDateList ⟨1, 1, 1⟩ ⟨1, 1, 3⟩).map (fun d => (goToUpper "usd", formatDate d)) :=
  C5_range_date_enumeration demoCfg demoRangeCmd demoFetch (fun _ => true) 0
    "usd" "0001-01-01" "0001-01-03" ⟨1, 1, 1⟩ ⟨1, 1, 3⟩ (by decide) rfl
    (by decide) (by decide) (by decide) (by decide)

end MEDB

